import Mathlib

/-!
# CloudBuild command line: command registry and argument resolution

A shallow embedding of `cmd/cloudbuild/cli/commands.go`.

* A Go struct handed to `PopulateArgs` through reflection is a list of
  `StructField`s (Go field name, `survey` tag, current string value).
* `map[string]string` is an association list read with `List.lookup`.
* The prompt library `survey` is outside the sources: its batch, its
  validator, its transform and its write-back (a field is found by its tag,
  else by its Go name ignoring case) are modelled.
* The terminal is the list of results of the successive reads of the operator's
  input; the remote credential service is a function from the request to its
  reply or its error.
* Every observable step (prompt, validation message, client construction,
  remote call, print) is appended to a trace.
* The lower-case table of Go's `unicode` package for the runes above ASCII is
  a parameter `T` of everything that lowercases a string.
-/

namespace CloudBuild

/-! ## Data model -/

/-- A Go `error` value, identified by its message. -/
structure Error where
  msg : String
deriving DecidableEq, Repr

/-- One field of a struct as `reflect` shows it: the Go field name, the value of
its `survey` tag (the empty string when the tag is absent) and its string value. -/
structure StructField where
  Name : String
  Tag : String
  Value : String
deriving DecidableEq, Repr

/-- The struct behind `data interface{}`: its fields in declaration order. -/
abbrev Record := List StructField

/-- The type `map[string]string` of the parsed flags. -/
abbrev FlagMap := List (String × String)

/-- What `flags[name]` gives: line 35, `val, ok := flags[fName]`. -/
def FlagMap.get (flags : FlagMap) (name : String) : Option String :=
  List.lookup name flags

/-- The operator's terminal: what each successive read returns, an answer or
the error of an aborted session. Reading past the end is a closed channel. -/
abbrev Terminal := List (Except Error String)

/-- The error of a read on a closed terminal. -/
def EOF : Error := ⟨"EOF"⟩

/-- A `survey.Question` as built at lines 38-43: `Prompt` is always a
`survey.Input` and is kept as its `Message`. -/
structure Question where
  Name : String
  Message : String
  Validate : Option (String → Option Error)
  Transform : Option (String → String)

/-- The requests of the credentials service of `pkg/cloudbuild`, with their
positional arguments in the order of the call. -/
inductive Op where
  | GetIOS (projectId credId : String)
  | GetAllIOS (projectId : String)
  | UpdateIOS (projectId certId label certPath profilePath certPass : String)
  | UploadIOS (projectId label certPath profilePath certPass : String)
  | DeleteIOS (projectId certId : String)
deriving DecidableEq, Repr

/-- The value a successful remote call returns: its printed form under
`%+v` and, for a delete, the `Status` of the response. -/
structure Reply where
  Body : String
  Status : String
deriving DecidableEq, Repr

/-- The remote service: the client is built from `apiKey` and `orgId`, and a
request is answered by a reply or by an error. -/
abbrev Remote := String → String → Op → Except Error Reply

/-- The observable steps of a run. -/
inductive Event where
  | prompt (message : String)
  | invalid (message : String) (err : Error)
  | newService (apiKey orgId : String)
  | call (op : Op)
  | printf (r : Reply)
  | println (s : String)
deriving DecidableEq, Repr

/-! ## The interactive prompt primitive -/

/-- Modelled from the spec: `survey.Required` of the third-party prompt library,
the required-non-empty validation rule; it rejects the empty answer. -/
def Required (ans : String) : Option Error :=
  if ans = "" then some ⟨"Value is required"⟩ else none

/-- The lower-case mapping of Go's Unicode tables on the runes above ASCII
(`unicode.To(unicode.LowerCase, r)`); the tables are outside the sources and
are a parameter `T` of every definition that lowercases. -/
abbrev CaseTable := Char → Char

/-- Modelled from the spec: the lowercasing of one rune, Go's
`unicode.ToLower`: an ASCII rune is lowered when it is one of `A` to `Z` and
kept otherwise; any other rune goes through the case table. -/
def toLowerRune (T : CaseTable) (r : Char) : Char :=
  if r.val < 128 then r.toLower else T r

/-- Modelled from the spec: `survey.ToLower` of the third-party prompt library,
the normalization transform that lowercases the answer: `strings.ToLower`,
which lowers the string rune by rune. -/
def ToLower (T : CaseTable) (ans : String) : String :=
  String.mk (ans.data.map (toLowerRune T))

/-- Modelled from the spec: one question of the interactive batch of
`survey.Ask`. The prompt is shown and an answer read; an answer the validator
rejects is reported and the same question is asked again; a failed read ends
the question with that error. Gives the accepted answer or the error, the rest
of the terminal and the steps shown. -/
def readAnswer (q : Question) : Terminal → Except Error String × Terminal × List Event
  | [] => (.error EOF, [], [.prompt q.Message])
  | .error e :: rest => (.error e, rest, [.prompt q.Message])
  | .ok ans :: rest =>
    match q.Validate.bind (fun v => v ans) with
    | none => (.ok ans, rest, [.prompt q.Message])
    | some bad =>
      ((readAnswer q rest).1, (readAnswer q rest).2.1,
        .prompt q.Message :: .invalid q.Message bad :: (readAnswer q rest).2.2)

/-- The name under which a field is looked up: lines 30-33, the `survey` tag,
or the field's own name when the tag is empty. -/
def lookupName (f : StructField) : String :=
  if f.Tag = "" then f.Name else f.Tag

/-- Modelled from the spec: the first pass of the field search of the
write-back of `survey.Ask`: the index of the first field whose `survey` tag is
not empty and equals `name`. -/
def findTag (name : String) : Record → Option Nat
  | [] => none
  | f :: fs =>
    if f.Tag ≠ "" ∧ f.Tag = name then some 0
    else
      match findTag name fs with
      | some i => some (i + 1)
      | none => none

/-- Modelled from the spec: the second pass of the field search of the
write-back of `survey.Ask`: the index of the first field whose Go name equals
`name` once both are lowercased. -/
def findName (T : CaseTable) (name : String) : Record → Option Nat
  | [] => none
  | f :: fs =>
    if ToLower T f.Name = ToLower T name then some 0
    else
      match findName T name fs with
      | some i => some (i + 1)
      | none => none

/-- Modelled from the spec: the field the write-back of `survey.Ask` selects
for a question's name (the question carries only its name): a field found by
its tag, else a field found by its Go name ignoring case, else none. -/
def findFieldIndex (T : CaseTable) (data : Record) (name : String) : Option Nat :=
  match findTag name data with
  | some i => some i
  | none => findName T name data

/-- Modelled from the spec: the copy of an answer into the selected field: the
record with the value `ans` in its field of index `i`. -/
def setValue : Record → Nat → String → Record
  | [], _, _ => []
  | f :: fs, 0, ans => { f with Value := ans } :: fs
  | f :: fs, i + 1, ans => f :: setValue fs i ans

/-- Modelled from the spec: the write of one answer back into the record by
`survey.Ask`: the selected field takes the value; with no field for the name
the write fails. -/
def WriteAnswer (T : CaseTable) (data : Record) (name ans : String) : Except Error Record :=
  match findFieldIndex T data name with
  | some i => .ok (setValue data i ans)
  | none => .error ⟨"could not find field matching " ++ name⟩

/-- What a call of `survey.Ask` or `PopulateArgs` leaves behind: the returned
error (`none` for `nil`), the record as mutated, the unread rest of the
terminal and the steps shown to the operator. -/
structure AskResult where
  err : Option Error
  data : Record
  rest : Terminal
  trace : List Event

/-- Modelled from the spec: `survey.Ask` of the third-party prompt library,
the interactive batch. The questions are asked in order; each accepted answer
goes through the question's transform and is written into the record under
the question's name; the first failure ends the batch and is returned. -/
def Ask (T : CaseTable) : List Question → Record → Terminal → AskResult
  | [], data, term => ⟨none, data, term, []⟩
  | q :: qs, data, term =>
    match readAnswer q term with
    | (.error e, rest, tr) => ⟨some e, data, rest, tr⟩
    | (.ok ans, rest, tr) =>
      match WriteAnswer T data q.Name (match q.Transform with | some t => t ans | none => ans) with
      | .error e => ⟨some e, data, rest, tr⟩
      | .ok data1 =>
        ⟨(Ask T qs data1 rest).err, (Ask T qs data1 rest).data, (Ask T qs data1 rest).rest,
          tr ++ (Ask T qs data1 rest).trace⟩

/-! ## `PopulateArgs` -/

/-- The loop of lines 29-45 over the fields in declaration order: a field whose
lookup name is a key of `flags` takes the flag's value, any other field is
left as it is and a question is appended for it. Gives the record after the
loop and the accumulated questions `qs`. -/
def scanFields (T : CaseTable) (flags : FlagMap) : Record → Record × List Question
  | [] => ([], [])
  | f :: fs =>
    match flags.get (lookupName f) with
    | some val => ({ f with Value := val } :: (scanFields T flags fs).1, (scanFields T flags fs).2)
    | none =>
      (f :: (scanFields T flags fs).1,
        ⟨lookupName f, lookupName f, some Required, some (ToLower T)⟩ :: (scanFields T flags fs).2)

/-- The function `PopulateArgs` of lines 22-52: the scan of the fields, then
the accumulated questions are handed to `survey.Ask` together with the record,
and its error, if any, is returned. -/
def PopulateArgs (T : CaseTable) (flags : FlagMap) (data : Record) (term : Terminal) :
    AskResult :=
  Ask T (scanFields T flags data).2 (scanFields T flags data).1 term

/-! ## The actions -/

/-- What running an action leaves behind: the returned error (`none` for
`nil`) and the steps of the run in order. -/
structure Outcome where
  err : Option Error
  trace : List Event

/-- The value of the Go field `name` of a record: `results.ApiKey` is
`fieldValue results "ApiKey"`. -/
def fieldValue (data : Record) (name : String) : String :=
  match data.find? (fun f => f.Name = name) with
  | some f => f.Value
  | none => ""

/-- The struct `results` of lines 68-73, zero-valued. -/
def getCredResults : Record :=
  [⟨"ApiKey", "apiKey", ""⟩, ⟨"OrgId", "orgId", ""⟩, ⟨"ProjectId", "projectId", ""⟩,
   ⟨"CredId", "credId", ""⟩]

/-- The struct `results` of lines 101-105, zero-valued. -/
def listCredsResults : Record :=
  [⟨"ApiKey", "apiKey", ""⟩, ⟨"OrgId", "orgId", ""⟩, ⟨"ProjectId", "projectId", ""⟩]

/-- The struct `results` of lines 137-146, zero-valued. -/
def updateCredResults : Record :=
  [⟨"ApiKey", "apiKey", ""⟩, ⟨"OrgId", "orgId", ""⟩, ⟨"ProjectId", "projectId", ""⟩,
   ⟨"CertId", "certId", ""⟩, ⟨"Label", "label", ""⟩, ⟨"CertPath", "certPath", ""⟩,
   ⟨"ProfilePath", "profilePath", ""⟩, ⟨"CertPass", "certPass", ""⟩]

/-- The struct `results` of lines 177-185, zero-valued. -/
def uploadCredResults : Record :=
  [⟨"ApiKey", "apiKey", ""⟩, ⟨"OrgId", "orgId", ""⟩, ⟨"ProjectId", "projectId", ""⟩,
   ⟨"Label", "label", ""⟩, ⟨"CertPath", "certPath", ""⟩,
   ⟨"ProfilePath", "profilePath", ""⟩, ⟨"CertPass", "certPass", ""⟩]

/-- The struct `results` of lines 213-218, zero-valued. -/
def deleteCredResults : Record :=
  [⟨"ApiKey", "apiKey", ""⟩, ⟨"OrgId", "orgId", ""⟩, ⟨"ProjectId", "projectId", ""⟩,
   ⟨"CertId", "certId", ""⟩]

/-- The action of `getCred`, lines 67-88. -/
def getCredAction (T : CaseTable) (flags : FlagMap) (term : Terminal) (remote : Remote) :
    Outcome :=
  let pa := PopulateArgs T flags getCredResults term
  match pa.err with
  | some err => ⟨some err, pa.trace⟩
  | none =>
    let results := pa.data
    let credsService := Event.newService (fieldValue results "ApiKey") (fieldValue results "OrgId")
    let op := Op.GetIOS (fieldValue results "ProjectId") (fieldValue results "CredId")
    match remote (fieldValue results "ApiKey") (fieldValue results "OrgId") op with
    | .error err => ⟨some err, pa.trace ++ [credsService, .call op]⟩
    | .ok cred => ⟨none, pa.trace ++ [credsService, .call op, .printf cred]⟩

/-- The action of `listCreds`, lines 99-120. -/
def listCredsAction (T : CaseTable) (flags : FlagMap) (term : Terminal) (remote : Remote) :
    Outcome :=
  let pa := PopulateArgs T flags listCredsResults term
  match pa.err with
  | some err => ⟨some err, pa.trace⟩
  | none =>
    let results := pa.data
    let credsService := Event.newService (fieldValue results "ApiKey") (fieldValue results "OrgId")
    let op := Op.GetAllIOS (fieldValue results "ProjectId")
    match remote (fieldValue results "ApiKey") (fieldValue results "OrgId") op with
    | .error err => ⟨some err, pa.trace ++ [credsService, .call op]⟩
    | .ok creds => ⟨none, pa.trace ++ [credsService, .call op, .printf creds]⟩

/-- The action of `updateCred`, lines 136-161. -/
def updateCredAction (T : CaseTable) (flags : FlagMap) (term : Terminal) (remote : Remote) :
    Outcome :=
  let pa := PopulateArgs T flags updateCredResults term
  match pa.err with
  | some err => ⟨some err, pa.trace⟩
  | none =>
    let results := pa.data
    let credsService := Event.newService (fieldValue results "ApiKey") (fieldValue results "OrgId")
    let op := Op.UpdateIOS (fieldValue results "ProjectId") (fieldValue results "CertId") (fieldValue results "Label")
      (fieldValue results "CertId") (fieldValue results "ProfilePath") (fieldValue results "CertPass")
    match remote (fieldValue results "ApiKey") (fieldValue results "OrgId") op with
    | .error err => ⟨some err, pa.trace ++ [credsService, .call op]⟩
    | .ok cred => ⟨none, pa.trace ++ [credsService, .call op, .printf cred]⟩

/-- The action of `uploadCred`, lines 176-200. -/
def uploadCredAction (T : CaseTable) (flags : FlagMap) (term : Terminal) (remote : Remote) :
    Outcome :=
  let pa := PopulateArgs T flags uploadCredResults term
  match pa.err with
  | some err => ⟨some err, pa.trace⟩
  | none =>
    let results := pa.data
    let credsService := Event.newService (fieldValue results "ApiKey") (fieldValue results "OrgId")
    let op := Op.UploadIOS (fieldValue results "ProjectId") (fieldValue results "Label") (fieldValue results "CertPath")
      (fieldValue results "ProfilePath") (fieldValue results "CertPass")
    match remote (fieldValue results "ApiKey") (fieldValue results "OrgId") op with
    | .error err => ⟨some err, pa.trace ++ [credsService, .call op]⟩
    | .ok cred => ⟨none, pa.trace ++ [credsService, .call op, .printf cred]⟩

/-- The action of `deleteCred`, lines 212-233. -/
def deleteCredAction (T : CaseTable) (flags : FlagMap) (term : Terminal) (remote : Remote) :
    Outcome :=
  let pa := PopulateArgs T flags deleteCredResults term
  match pa.err with
  | some err => ⟨some err, pa.trace⟩
  | none =>
    let results := pa.data
    let credsService := Event.newService (fieldValue results "ApiKey") (fieldValue results "OrgId")
    let op := Op.DeleteIOS (fieldValue results "ProjectId") (fieldValue results "CertId")
    match remote (fieldValue results "ApiKey") (fieldValue results "OrgId") op with
    | .error err => ⟨some err, pa.trace ++ [credsService, .call op]⟩
    | .ok resp => ⟨none, pa.trace ++ [credsService, .call op, .println resp.Status]⟩

/-! ## The registry -/

/-- One declared flag of a `flag.FlagSet`: name, default value, usage text. -/
structure Flag where
  Name : String
  DefValue : String
  Usage : String
deriving DecidableEq, Repr

/-- A `flag.FlagSet`: the name it was created with and its declared flags. -/
structure FlagSet where
  name : String
  formal : List Flag
deriving DecidableEq, Repr

/-- The call `flags.String(name, value, usage)`: one more declared flag. -/
def FlagSet.declare (fs : FlagSet) (name value usage : String) : FlagSet :=
  { fs with formal := fs.formal ++ [⟨name, value, usage⟩] }

/-- The names of the flags declared on a flag set. -/
def FlagSet.names (fs : FlagSet) : List String :=
  fs.formal.map Flag.Name

/-- The struct `Command` of lines 15-20. -/
structure Command where
  Name : String
  HelpText : String
  Flags : FlagSet
  Action : FlagMap → Terminal → Remote → Outcome

/-- The array `CommandOrder` of line 54. -/
def CommandOrder : List String :=
  ["getCred", "listCreds", "updateCred", "uploadCred", "deleteCred"]

/-- The map `Commands` of lines 56-235, as its key and value pairs. The function
`CreateFlagSet` is declared outside this file and is a parameter: it gives the
flag set a command starts from. The case table `T` is the one the actions
lowercase with. -/
def Commands (T : CaseTable) (CreateFlagSet : String → FlagSet) : List (String × Command) :=
  [ ("getCred",
      ⟨"getCred", "Get IOS Credential Detials",
        ((CreateFlagSet "getCred").declare "projectId" "" "Project Id").declare
          "credId" "" "Credential Id",
        getCredAction T⟩),
    ("listCreds",
      ⟨"listCreds", "List all IOS Credentials",
        (CreateFlagSet "listCreds").declare "projectId" "" "Project Id",
        listCredsAction T⟩),
    ("updateCred",
      ⟨"updateCred", "Update a IOS Credential",
        ((((((CreateFlagSet "updateCred").declare "projectId" "" "Project Id").declare
          "certId" "" "Certificate Id").declare "label" "" "Label").declare
          "certPath" "" "Certificate Path").declare
          "profilePath" "" "Provisioning Profile Path").declare
          "certPass" "" "Certificate password",
        updateCredAction T⟩),
    ("uploadCred",
      ⟨"uploadCred", "Upload a IOS Credential",
        (((((CreateFlagSet "uploadCred").declare "projectId" "" "Project Id").declare
          "label" "" "Label").declare "certPath" "" "Certificate Path").declare
          "profilePath" "" "Provisioning Profile Path").declare
          "certPass" "" "Certificate password",
        uploadCredAction T⟩),
    ("deleteCred",
      ⟨"DeleteCred", "Delete a IOS Credential",
        ((CreateFlagSet "deleteCred").declare "projectId" "" "Project Id").declare
          "credId" "" "Credential Id",
        deleteCredAction T⟩) ]

/-- The struct that the action stored under a key of `Commands` hands to
`PopulateArgs`. -/
def actionRecord (key : String) : Record :=
  if key = "getCred" then getCredResults
  else if key = "listCreds" then listCredsResults
  else if key = "updateCred" then updateCredResults
  else if key = "uploadCred" then uploadCredResults
  else if key = "deleteCred" then deleteCredResults
  else []

/-- The lookup names of the fields of a record, in declaration order. -/
def lookupNames (data : Record) : List String :=
  data.map lookupName

/-! ## Vocabulary of the statements -/

/-- The fields of a record whose lookup name is not a key of `flags`. -/
def missingFields (flags : FlagMap) (data : Record) : Record :=
  data.filter (fun f => (flags.get (lookupName f)).isNone)

/-- The question of lines 38-43 for a field: `Name` and prompt message are the
lookup name, with the validator `survey.Required` and the transform
`survey.ToLower`. -/
def questionFor (T : CaseTable) (f : StructField) : Question :=
  ⟨lookupName f, lookupName f, some Required, some (ToLower T)⟩

/-- The question of lines 38-43 under the lookup name `n`. -/
def questionNamed (T : CaseTable) (n : String) : Question :=
  ⟨n, n, some Required, some (ToLower T)⟩

/-- The field `f` with the value `v` if its lookup name is `n`, else `f`. -/
def setNamed (n v : String) (f : StructField) : StructField :=
  if lookupName f = n then { f with Value := v } else f

/-- The field `f` with the value `vals` gives for its lookup name if that name
is one of `ns`, else `f`. -/
def assign (ns : List String) (vals : String → String) (f : StructField) : StructField :=
  if lookupName f ∈ ns then { f with Value := vals (lookupName f) } else f

/-- The field `f` after the scan of lines 29-45: with the value of the flag
under its lookup name if there is one, else `f`. -/
def fromFlags (flags : FlagMap) (f : StructField) : StructField :=
  match flags.get (lookupName f) with
  | some val => { f with Value := val }
  | none => f

/-- The field `f` as a successful resolution leaves it: with the value of the
flag under its lookup name if there is one, else with the value `vals` gives
for its lookup name. -/
def resolved (flags : FlagMap) (vals : String → String) (f : StructField) : StructField :=
  match flags.get (lookupName f) with
  | some val => { f with Value := val }
  | none => { f with Value := vals (lookupName f) }

/-- The body shared by the five actions: resolve the record `results`, then
build the client from `ApiKey` and `OrgId`, send the request `request` builds
from the resolved record, and show a successful reply with `shown`. -/
def actionShape (T : CaseTable) (results : Record) (request : Record → Op)
    (shown : Reply → Event) (flags : FlagMap) (term : Terminal) (remote : Remote) : Outcome :=
  match (PopulateArgs T flags results term).err with
  | some err => ⟨some err, (PopulateArgs T flags results term).trace⟩
  | none =>
    match remote (fieldValue (PopulateArgs T flags results term).data "ApiKey")
        (fieldValue (PopulateArgs T flags results term).data "OrgId")
        (request (PopulateArgs T flags results term).data) with
    | .error err =>
      ⟨some err, (PopulateArgs T flags results term).trace ++
        [.newService (fieldValue (PopulateArgs T flags results term).data "ApiKey")
            (fieldValue (PopulateArgs T flags results term).data "OrgId"),
          .call (request (PopulateArgs T flags results term).data)]⟩
    | .ok reply =>
      ⟨none, (PopulateArgs T flags results term).trace ++
        [.newService (fieldValue (PopulateArgs T flags results term).data "ApiKey")
            (fieldValue (PopulateArgs T flags results term).data "OrgId"),
          .call (request (PopulateArgs T flags results term).data), shown reply]⟩

/-- The request each action sends, from the resolved record: the fields it
passes, in the order of the call. -/
def actionRequest (key : String) (results : Record) : Op :=
  if key = "getCred" then
    .GetIOS (fieldValue results "ProjectId") (fieldValue results "CredId")
  else if key = "listCreds" then
    .GetAllIOS (fieldValue results "ProjectId")
  else if key = "updateCred" then
    .UpdateIOS (fieldValue results "ProjectId") (fieldValue results "CertId")
      (fieldValue results "Label") (fieldValue results "CertId")
      (fieldValue results "ProfilePath") (fieldValue results "CertPass")
  else if key = "uploadCred" then
    .UploadIOS (fieldValue results "ProjectId") (fieldValue results "Label")
      (fieldValue results "CertPath") (fieldValue results "ProfilePath")
      (fieldValue results "CertPass")
  else
    .DeleteIOS (fieldValue results "ProjectId") (fieldValue results "CertId")

/-- The flags of an `updateCred` run that supplies all eight fields. -/
def updateCredFlags : FlagMap :=
  [("apiKey", "k"), ("orgId", "o"), ("projectId", "p"), ("certId", "cert-1"), ("label", "l"),
   ("certPath", "dist.p12"), ("profilePath", "app.mobileprovision"), ("certPass", "pw")]

/-- A `CreateFlagSet` that starts every command with the flags `apiKey` and
`orgId`. -/
def authFlagSet (name : String) : FlagSet :=
  ⟨name, [⟨"apiKey", "", "Api Key"⟩, ⟨"orgId", "", "Organization Id"⟩]⟩

/-- A remote service on which every request fails as not found. -/
def notFound : Remote :=
  fun _ _ _ => .error ⟨"404 Not Found"⟩

/-- A remote service that answers every request with the same reply. -/
def accepting : Remote :=
  fun _ _ _ => .ok ⟨"credential", "204 No Content"⟩

/-- The steps shown for a question with message `m` answered `k` times with the
empty line: each time the prompt, then the rejection by `survey.Required`. -/
def rejected (m : String) : Nat → List Event
  | 0 => []
  | k + 1 => .prompt m :: .invalid m ⟨"Value is required"⟩ :: rejected m k

/-- A case table that lowers the capital letters of Latin-1 (`À` to `Þ`, the
sign `×` apart) as the Unicode tables do and keeps every other rune. -/
def latin1 : CaseTable :=
  fun r => if 192 ≤ r.val.toNat ∧ r.val.toNat ≤ 222 ∧ r.val.toNat ≠ 215
    then Char.ofNat (r.val.toNat + 32) else r

/-- The Go name and the tag of a field: what the field search reads. -/
def shape (f : StructField) : String × String :=
  (f.Name, f.Tag)

/-- The value a field holds after the scan of lines 29-45 alone: the flag
under its lookup name if there is one, else its value as passed in. -/
def scannedValue (flags : FlagMap) (f : StructField) : String :=
  match flags.get (lookupName f) with
  | some val => val
  | none => f.Value

/-- What the operator types when asked `k` questions in order, the first of
them of index `j`: for the question of index `i`, first `retries i` empty
lines, then `answer i`. -/
def typedInOrder (retries : Nat → Nat) (answer : Nat → String) : Nat → Nat → Terminal
  | _, 0 => []
  | j, k + 1 =>
    List.replicate (retries j) (.ok "") ++ .ok (answer j) :: typedInOrder retries answer (j + 1) k

/-- The steps shown when the questions named `ns` are asked in order, the
first of them of index `j`, and the question of index `i` is answered
`retries i` times with the empty line before its accepted answer. -/
def shownInOrder (retries : Nat → Nat) : Nat → List String → List Event
  | _, [] => []
  | j, n :: ns => rejected n (retries j) ++ .prompt n :: shownInOrder retries (j + 1) ns

/-- A record of two untagged fields whose Go names differ by case only. -/
def caseRecord : Record :=
  [⟨"Ab", "", ""⟩, ⟨"AB", "", ""⟩]

/-- A record with two fields under one `survey` tag. -/
def sharedTagRecord : Record :=
  [⟨"First", "x", ""⟩, ⟨"Second", "x", ""⟩]

/-- What the operator types when asked the questions named `ns` in order: for
the question named `n`, first `retries n` empty lines, then `answer n`. -/
def typedAnswers (retries : String → Nat) (answer : String → String) : List String → Terminal
  | [] => []
  | n :: ns => List.replicate (retries n) (.ok "") ++ .ok (answer n) :: typedAnswers retries answer ns

/-- The steps shown when the questions named `ns` are asked in order and the
question named `n` is answered `retries n` times with the empty line before
its accepted answer. -/
def shownSteps (retries : String → Nat) : List String → List Event
  | [] => []
  | n :: ns => rejected n (retries n) ++ .prompt n :: shownSteps retries ns

/-- The print steps of a trace, in order: what reaches the output channel. -/
def printed (tr : List Event) : List Event :=
  tr.filter (fun ev => match ev with
    | .printf _ => true
    | .println _ => true
    | _ => false)

/-- The remote requests of a trace, in order. -/
def remoteCalls (tr : List Event) : List Op :=
  tr.filterMap (fun ev => match ev with
    | .call op => some op
    | _ => none)

/-- The clients constructed in a trace, in order, as their `apiKey` and
`orgId`. -/
def clients (tr : List Event) : List (String × String) :=
  tr.filterMap (fun ev => match ev with
    | .newService k o => some (k, o)
    | _ => none)

/-- A step that belongs to the interactive batch: a prompt or a validation
message. -/
def Event.interactive : Event → Bool
  | .prompt _ => true
  | .invalid _ _ => true
  | _ => false

end CloudBuild

namespace CloudBuild

/-! ## Lemmas on the prompt primitive -/

theorem ToLower_ne_empty (T : CaseTable) (a : String) (h : a ≠ "") : ToLower T a ≠ "" := by
  intro h1
  apply h
  have h2 := congrArg String.data h1
  simp [ToLower] at h2
  cases a
  simp_all

theorem Required_empty : Required "" = some ⟨"Value is required"⟩ := rfl

theorem Required_nonempty (a : String) (h : a ≠ "") : Required a = none := by
  simp [Required, h]

theorem readAnswer_rejected (q : Question) (hq : q.Validate = some Required) (a : String)
    (ha : a ≠ "") (rest : Terminal) (k : Nat) :
    readAnswer q (List.replicate k (.ok "") ++ .ok a :: rest)
      = (.ok a, rest, rejected q.Message k ++ [.prompt q.Message]) := by
  induction k with
  | zero => simp [readAnswer, hq, Required_nonempty a ha, rejected]
  | succ k ih =>
    have step : ∀ t : Terminal, readAnswer q (.ok "" :: t)
        = ((readAnswer q t).1, (readAnswer q t).2.1,
            .prompt q.Message :: .invalid q.Message ⟨"Value is required"⟩ :: (readAnswer q t).2.2) := by
      intro t
      simp [readAnswer, hq, Required_empty]
    rw [List.replicate_succ, List.cons_append, step, ih]
    simp [rejected]

theorem readAnswer_accepts (q : Question) (hq : q.Validate = some Required) :
    ∀ (term : Terminal) (a : String), (readAnswer q term).1 = .ok a → a ≠ "" := by
  intro term
  induction term with
  | nil => intro a h; simp [readAnswer] at h
  | cons x rest ih =>
    intro a h
    cases x with
    | error e => simp [readAnswer] at h
    | ok ans =>
      by_cases hans : ans = ""
      · subst hans
        simp [readAnswer, hq, Required_empty] at h
        exact ih a h
      · simp [readAnswer, hq, Required_nonempty ans hans] at h
        subst h
        exact hans

/-! ## Lemmas on the field search and on the write-back -/

theorem findTag_lt (n : String) : ∀ (d : Record) (i : Nat), findTag n d = some i → i < d.length := by
  intro d
  induction d with
  | nil => intro i h; simp [findTag] at h
  | cons f fs ih =>
    intro i h
    simp only [findTag] at h
    split at h
    · cases h; simp
    · split at h
      · rename_i j hj
        cases h
        have := ih j hj
        simp only [List.length_cons]
        omega
      · cases h

theorem findName_lt (T : CaseTable) (n : String) :
    ∀ (d : Record) (i : Nat), findName T n d = some i → i < d.length := by
  intro d
  induction d with
  | nil => intro i h; simp [findName] at h
  | cons f fs ih =>
    intro i h
    simp only [findName] at h
    split at h
    · cases h; simp
    · split at h
      · rename_i j hj
        cases h
        have := ih j hj
        simp only [List.length_cons]
        omega
      · cases h

theorem findFieldIndex_lt (T : CaseTable) (n : String) (d : Record) (i : Nat)
    (h : findFieldIndex T d n = some i) : i < d.length := by
  unfold findFieldIndex at h
  split at h
  · rename_i j hj
    cases h
    exact findTag_lt n d _ hj
  · exact findName_lt T n d i h

theorem findTag_shape (n : String) :
    ∀ d d1 : Record, d.map shape = d1.map shape → findTag n d = findTag n d1 := by
  intro d
  induction d with
  | nil =>
    intro d1 h
    cases d1 with
    | nil => rfl
    | cons g gs => simp at h
  | cons f fs ih =>
    intro d1 h
    cases d1 with
    | nil => simp at h
    | cons g gs =>
      simp only [List.map_cons, List.cons.injEq, shape, Prod.mk.injEq] at h
      simp only [findTag, h.1.2, ih gs h.2]

theorem findName_shape (T : CaseTable) (n : String) :
    ∀ d d1 : Record, d.map shape = d1.map shape → findName T n d = findName T n d1 := by
  intro d
  induction d with
  | nil =>
    intro d1 h
    cases d1 with
    | nil => rfl
    | cons g gs => simp at h
  | cons f fs ih =>
    intro d1 h
    cases d1 with
    | nil => simp at h
    | cons g gs =>
      simp only [List.map_cons, List.cons.injEq, shape, Prod.mk.injEq] at h
      simp only [findName, h.1.1, ih gs h.2]

theorem findFieldIndex_shape (T : CaseTable) (n : String) (d d1 : Record)
    (h : d.map shape = d1.map shape) : findFieldIndex T d n = findFieldIndex T d1 n := by
  unfold findFieldIndex
  rw [findTag_shape n d d1 h, findName_shape T n d d1 h]

theorem shape_setValue (v : String) :
    ∀ (d : Record) (i : Nat), (setValue d i v).map shape = d.map shape := by
  intro d
  induction d with
  | nil => intro i; rfl
  | cons f fs ih =>
    intro i
    cases i with
    | zero => rfl
    | succ i => simp only [setValue, List.map_cons, ih i]

theorem getElem?_setValue_self (v : String) :
    ∀ (d : Record) (i : Nat), (setValue d i v)[i]? = d[i]?.map (fun f => { f with Value := v }) := by
  intro d
  induction d with
  | nil => intro i; simp [setValue]
  | cons f fs ih =>
    intro i
    cases i with
    | zero => simp [setValue]
    | succ i => simp [setValue, ih i]

theorem getElem?_setValue_other (v : String) :
    ∀ (d : Record) (i j : Nat), j ≠ i → (setValue d i v)[j]? = d[j]? := by
  intro d
  induction d with
  | nil => intro i j _; simp [setValue]
  | cons f fs ih =>
    intro i j hji
    cases i with
    | zero =>
      cases j with
      | zero => exact absurd rfl hji
      | succ j => simp [setValue]
    | succ i =>
      cases j with
      | zero => simp [setValue]
      | succ j =>
        simp only [setValue, List.getElem?_cons_succ]
        exact ih i j (fun h => hji (by rw [h]))

theorem findTag_self (f : StructField) (hf : f.Tag ≠ "") :
    ∀ d : Record, f ∈ d → (findTag f.Tag d).isSome = true := by
  intro d
  induction d with
  | nil => intro h; simp at h
  | cons g gs ih =>
    intro h
    simp only [findTag]
    split
    · rfl
    · rename_i hg
      rcases List.mem_cons.mp h with h1 | h1
      · subst h1
        exact absurd ⟨hf, rfl⟩ hg
      · have := ih h1
        cases hx : findTag f.Tag gs with
        | none => rw [hx] at this; cases this
        | some i => rfl

theorem findName_self (T : CaseTable) (f : StructField) :
    ∀ d : Record, f ∈ d → (findName T f.Name d).isSome = true := by
  intro d
  induction d with
  | nil => intro h; simp at h
  | cons g gs ih =>
    intro h
    simp only [findName]
    split
    · rfl
    · rename_i hg
      rcases List.mem_cons.mp h with h1 | h1
      · subst h1
        exact absurd rfl hg
      · have := ih h1
        cases hx : findName T f.Name gs with
        | none => rw [hx] at this; cases this
        | some i => rfl

theorem findFieldIndex_lookupName (T : CaseTable) (d : Record) (f : StructField) (hf : f ∈ d) :
    (findFieldIndex T d (lookupName f)).isSome = true := by
  unfold findFieldIndex lookupName
  by_cases ht : f.Tag = ""
  · rw [if_pos ht]
    split
    · rfl
    · exact findName_self T f d hf
  · rw [if_neg ht]
    have := findTag_self f ht d hf
    cases hx : findTag f.Tag d with
    | none => rw [hx] at this; cases this
    | some i => rfl

/-! ## Records whose fields all carry a tag -/

theorem lookupName_tagged (f : StructField) (h : f.Tag ≠ "") : lookupName f = f.Tag := by
  unfold lookupName
  rw [if_neg h]

theorem lookupName_setNamed (n v : String) (f : StructField) :
    lookupName (setNamed n v f) = lookupName f := by
  unfold setNamed
  split <;> rfl

theorem lookupName_fromFlags (flags : FlagMap) (f : StructField) :
    lookupName (fromFlags flags f) = lookupName f := by
  unfold fromFlags
  split <;> rfl

theorem Tag_setNamed (n v : String) (f : StructField) : (setNamed n v f).Tag = f.Tag := by
  unfold setNamed
  split <;> rfl

theorem Tag_fromFlags (flags : FlagMap) (f : StructField) : (fromFlags flags f).Tag = f.Tag := by
  unfold fromFlags
  split <;> rfl

theorem tagged_map_setNamed (n v : String) (d : Record) (h : ∀ f ∈ d, f.Tag ≠ "") :
    ∀ f ∈ d.map (setNamed n v), f.Tag ≠ "" := by
  intro f hf
  obtain ⟨g, hg, rfl⟩ := List.mem_map.mp hf
  rw [Tag_setNamed]
  exact h g hg

theorem tagged_map_fromFlags (flags : FlagMap) (d : Record) (h : ∀ f ∈ d, f.Tag ≠ "") :
    ∀ f ∈ d.map (fromFlags flags), f.Tag ≠ "" := by
  intro f hf
  obtain ⟨g, hg, rfl⟩ := List.mem_map.mp hf
  rw [Tag_fromFlags]
  exact h g hg

theorem lookupNames_map_setNamed (n v : String) (d : Record) :
    lookupNames (d.map (setNamed n v)) = lookupNames d := by
  simp [lookupNames, List.map_map, Function.comp_def, lookupName_setNamed]

theorem lookupNames_map_fromFlags (flags : FlagMap) (d : Record) :
    lookupNames (d.map (fromFlags flags)) = lookupNames d := by
  simp [lookupNames, List.map_map, Function.comp_def, lookupName_fromFlags]

theorem map_setNamed_of_not_mem (n v : String) :
    ∀ d : Record, n ∉ lookupNames d → d.map (setNamed n v) = d := by
  intro d
  induction d with
  | nil => intro _; rfl
  | cons f fs ih =>
    intro h
    simp only [lookupNames, List.map_cons, List.mem_cons, not_or] at h
    have hf : setNamed n v f = f := by
      unfold setNamed
      rw [if_neg (fun hh => h.1 hh.symm)]
    simp only [List.map_cons, hf]
    rw [ih h.2]

theorem findTag_tagged (n v : String) :
    ∀ d : Record, (∀ f ∈ d, f.Tag ≠ "") → (lookupNames d).Nodup → n ∈ lookupNames d →
      ∃ i, findTag n d = some i ∧ setValue d i v = d.map (setNamed n v) := by
  intro d
  induction d with
  | nil => intro _ _ h; simp [lookupNames] at h
  | cons f fs ih =>
    intro hall hnd hmem
    have hft : f.Tag ≠ "" := hall f (List.mem_cons_self f fs)
    have hln : lookupName f = f.Tag := lookupName_tagged f hft
    simp only [lookupNames, List.map_cons, List.nodup_cons] at hnd
    by_cases hf : f.Tag = n
    · have hnot : n ∉ lookupNames fs := by
        rw [← hf, ← hln]
        exact hnd.1
      refine ⟨0, ?_, ?_⟩
      · simp only [findTag]
        rw [if_pos ⟨hft, hf⟩]
      · simp only [setValue, List.map_cons, map_setNamed_of_not_mem n v fs hnot]
        simp [setNamed, hln, hf]
    · have hin : n ∈ lookupNames fs := by
        simp only [lookupNames, List.map_cons, List.mem_cons] at hmem
        rcases hmem with h | h
        · rw [hln] at h
          exact absurd h.symm hf
        · exact h
      obtain ⟨i, hi, hset⟩ := ih (fun g hg => hall g (List.mem_cons_of_mem f hg)) hnd.2 hin
      refine ⟨i + 1, ?_, ?_⟩
      · simp only [findTag]
        rw [if_neg (fun hh => hf hh.2), hi]
      · simp only [setValue, List.map_cons, hset]
        simp [setNamed, hln, hf]

theorem WriteAnswer_tagged (T : CaseTable) (n v : String) (d : Record)
    (hall : ∀ f ∈ d, f.Tag ≠ "") (hnd : (lookupNames d).Nodup) (hmem : n ∈ lookupNames d) :
    WriteAnswer T d n v = .ok (d.map (setNamed n v)) := by
  obtain ⟨i, hi, hset⟩ := findTag_tagged n v d hall hnd hmem
  simp only [WriteAnswer, findFieldIndex, hi, hset]

theorem map_assign_nil (vals : String → String) (d : Record) : d.map (assign [] vals) = d := by
  have h : assign [] vals = id := by
    funext f
    simp [assign]
  rw [h, List.map_id]

theorem map_assign_cons (n : String) (ns : List String) (hn : n ∉ ns) (vals : String → String)
    (v : String) (hv : vals n = v) (d : Record) :
    (d.map (setNamed n v)).map (assign ns vals) = d.map (assign (n :: ns) vals) := by
  rw [List.map_map]
  apply List.map_congr_left
  intro f _
  by_cases hf : lookupName f = n
  · have h1 : assign ns vals { f with Value := v } = { f with Value := v } := by
      unfold assign
      rw [if_neg]
      show lookupName f ∉ ns
      rw [hf]
      exact hn
    have h2 : assign (n :: ns) vals f = { f with Value := v } := by
      unfold assign
      rw [if_pos (by rw [hf]; exact List.mem_cons_self n ns), hf, hv]
    simp only [Function.comp_apply, setNamed, if_pos hf, h1, h2]
  · have h2 : (lookupName f ∈ n :: ns) = (lookupName f ∈ ns) := by
      simp [hf]
    simp only [Function.comp_apply, setNamed, if_neg hf, assign, h2]

theorem Ask_cons_ok (T : CaseTable) (q : Question) (qs : List Question) (d d1 : Record)
    (term rest : Terminal) (a : String) (tr : List Event) (t : String → String)
    (hr : readAnswer q term = (.ok a, rest, tr)) (ht : q.Transform = some t)
    (hw : WriteAnswer T d q.Name (t a) = .ok d1) :
    Ask T (q :: qs) d term
      = ⟨(Ask T qs d1 rest).err, (Ask T qs d1 rest).data, (Ask T qs d1 rest).rest,
          tr ++ (Ask T qs d1 rest).trace⟩ := by
  simp only [Ask, hr, ht, hw]

theorem Ask_typed (T : CaseTable) (retries : String → Nat) (answer : String → String) :
    ∀ (ns : List String) (d : Record) (extra : Terminal), ns.Nodup →
      (∀ f ∈ d, f.Tag ≠ "") → (lookupNames d).Nodup →
      (∀ n ∈ ns, n ∈ lookupNames d) → (∀ n ∈ ns, answer n ≠ "") →
      Ask T (ns.map (questionNamed T)) d (typedAnswers retries answer ns ++ extra)
        = ⟨none, d.map (assign ns (fun n => ToLower T (answer n))), extra,
            shownSteps retries ns⟩ := by
  intro ns
  induction ns with
  | nil =>
    intro d extra _ _ _ _ _
    simp [Ask, typedAnswers, shownSteps, map_assign_nil]
  | cons n ns ih =>
    intro d extra hns hall hd hin hne
    have hn : n ∉ ns := (List.nodup_cons.mp hns).1
    have hterm : typedAnswers retries answer (n :: ns) ++ extra
        = List.replicate (retries n) (.ok "") ++ .ok (answer n) ::
            (typedAnswers retries answer ns ++ extra) := by
      simp [typedAnswers]
    have hr := readAnswer_rejected (questionNamed T n) rfl (answer n)
      (hne n (List.mem_cons_self n ns)) (typedAnswers retries answer ns ++ extra) (retries n)
    have hw := WriteAnswer_tagged T n (ToLower T (answer n)) d hall hd
      (hin n (List.mem_cons_self n ns))
    rw [List.map_cons, hterm, Ask_cons_ok T (questionNamed T n) _ d _ _ _ _ _ (ToLower T) hr rfl hw]
    have hd1 : (lookupNames (d.map (setNamed n (ToLower T (answer n))))).Nodup := by
      rw [lookupNames_map_setNamed]; exact hd
    have hin1 : ∀ m ∈ ns, m ∈ lookupNames (d.map (setNamed n (ToLower T (answer n)))) := by
      intro m hm
      rw [lookupNames_map_setNamed]
      exact hin m (List.mem_cons_of_mem n hm)
    rw [ih _ extra (List.nodup_cons.mp hns).2 (tagged_map_setNamed _ _ d hall) hd1 hin1
      (fun m hm => hne m (List.mem_cons_of_mem n hm))]
    rw [map_assign_cons n ns hn _ _ rfl d]
    simp [shownSteps, questionNamed]

theorem Ask_accepted (T : CaseTable) :
    ∀ (ns : List String) (d : Record) (term : Terminal), ns.Nodup →
      (∀ f ∈ d, f.Tag ≠ "") → (lookupNames d).Nodup →
      (∀ n ∈ ns, n ∈ lookupNames d) → (Ask T (ns.map (questionNamed T)) d term).err = none →
      ∃ vals : String → String, (∀ n ∈ ns, vals n ≠ "") ∧
        (Ask T (ns.map (questionNamed T)) d term).data = d.map (assign ns vals) := by
  intro ns
  induction ns with
  | nil =>
    intro d term _ _ _ _ _
    exact ⟨fun _ => "", by simp, by simp [Ask, map_assign_nil]⟩
  | cons n ns ih =>
    intro d term hns hall hd hin herr
    have hn : n ∉ ns := (List.nodup_cons.mp hns).1
    rcases hr : readAnswer (questionNamed T n) term with ⟨r, rest, tr⟩
    cases r with
    | error e => simp [Ask, hr] at herr
    | ok a =>
      have ha : a ≠ "" := readAnswer_accepts (questionNamed T n) rfl term a (by rw [hr])
      have hw := WriteAnswer_tagged T n (ToLower T a) d hall hd (hin n (List.mem_cons_self n ns))
      rw [List.map_cons, Ask_cons_ok T (questionNamed T n) _ d _ _ _ _ _ (ToLower T) hr rfl hw]
        at herr ⊢
      have hd1 : (lookupNames (d.map (setNamed n (ToLower T a)))).Nodup := by
        rw [lookupNames_map_setNamed]; exact hd
      have hin1 : ∀ m ∈ ns, m ∈ lookupNames (d.map (setNamed n (ToLower T a))) := by
        intro m hm
        rw [lookupNames_map_setNamed]
        exact hin m (List.mem_cons_of_mem n hm)
      obtain ⟨vals, hvals, hdata⟩ := ih _ rest (List.nodup_cons.mp hns).2
        (tagged_map_setNamed _ _ d hall) hd1 hin1 herr
      refine ⟨fun m => if m = n then ToLower T a else vals m, ?_, ?_⟩
      · intro m hm
        by_cases hmn : m = n
        · simp only [if_pos hmn]
          exact ToLower_ne_empty T a ha
        · simp only [if_neg hmn]
          rcases List.mem_cons.mp hm with h | h
          · exact absurd h hmn
          · exact hvals m h
      · show (Ask T (ns.map (questionNamed T)) _ rest).data = _
        rw [hdata, ← map_assign_cons n ns hn _ (ToLower T a) (by simp) d]
        apply List.map_congr_left
        intro f _
        unfold assign
        by_cases hf : lookupName f ∈ ns
        · have hfn : lookupName f ≠ n := fun h => hn (h ▸ hf)
          simp [hf, hfn]
        · simp [hf]

/-! ## Lemmas on the scan of the fields -/

theorem scanFields_data (T : CaseTable) (flags : FlagMap) :
    ∀ data : Record, (scanFields T flags data).1 = data.map (fromFlags flags) := by
  intro data
  induction data with
  | nil => rfl
  | cons f fs ih =>
    cases h : flags.get (lookupName f) with
    | none => simp [scanFields, fromFlags, h, ih]
    | some v => simp [scanFields, fromFlags, h, ih]

theorem scanFields_questions (T : CaseTable) (flags : FlagMap) :
    ∀ data : Record,
      (scanFields T flags data).2 = (missingFields flags data).map (questionFor T) := by
  intro data
  induction data with
  | nil => rfl
  | cons f fs ih =>
    cases h : flags.get (lookupName f) with
    | none =>
      simp only [scanFields, h, missingFields, List.filter_cons, Option.isNone_none, if_true,
        List.map_cons, questionFor]
      rw [ih]
      rfl
    | some v =>
      simp only [scanFields, h, missingFields, List.filter_cons, Option.isNone_some]
      rw [ih]
      rfl

theorem questionFor_eq (T : CaseTable) : questionFor T = questionNamed T ∘ lookupName := rfl

theorem missing_questions (T : CaseTable) (flags : FlagMap) (data : Record) :
    (missingFields flags data).map (questionFor T)
      = (lookupNames (missingFields flags data)).map (questionNamed T) := by
  simp [lookupNames, List.map_map, questionFor_eq]

theorem missing_nodup (flags : FlagMap) (data : Record) (h : (lookupNames data).Nodup) :
    (lookupNames (missingFields flags data)).Nodup := by
  unfold lookupNames missingFields
  exact List.Nodup.sublist (List.Sublist.map _ (List.filter_sublist _)) h

theorem missing_mem (flags : FlagMap) (data : Record) :
    ∀ n ∈ lookupNames (missingFields flags data), n ∈ lookupNames (data.map (fromFlags flags)) := by
  intro n hn
  rw [lookupNames_map_fromFlags]
  simp only [lookupNames, missingFields, List.mem_map, List.mem_filter] at hn ⊢
  obtain ⟨f, ⟨hf, _⟩, rfl⟩ := hn
  exact ⟨f, hf, rfl⟩

theorem mem_missing_names (flags : FlagMap) (data : Record) (f : StructField) (hf : f ∈ data) :
    lookupName f ∈ lookupNames (missingFields flags data) ↔ flags.get (lookupName f) = none := by
  simp only [lookupNames, missingFields, List.mem_map, List.mem_filter]
  constructor
  · rintro ⟨g, ⟨_, hg⟩, hname⟩
    rw [← hname]
    simpa using hg
  · intro h
    exact ⟨f, ⟨hf, by simp [h]⟩, rfl⟩

/-! ## The record after `PopulateArgs`, for a record of tagged fields -/

theorem map_assign_fromFlags (flags : FlagMap) (vals : String → String) (data : Record) :
    (data.map (fromFlags flags)).map (assign (lookupNames (missingFields flags data)) vals)
      = data.map (resolved flags vals) := by
  rw [List.map_map]
  apply List.map_congr_left
  intro f hf
  have hm := mem_missing_names flags data f hf
  cases h : flags.get (lookupName f) with
  | none =>
    have h1 : lookupName f ∈ lookupNames (missingFields flags data) := hm.mpr h
    simp [assign, fromFlags, resolved, h, h1]
  | some v =>
    have h1 : lookupName f ∉ lookupNames (missingFields flags data) := by
      intro hin
      rw [hm.mp hin] at h
      cases h
    have h2 : lookupName { f with Value := v } = lookupName f := rfl
    simp [assign, fromFlags, resolved, h, h1, h2]

theorem PopulateArgs_typed (T : CaseTable) (flags : FlagMap) (data : Record)
    (retries : String → Nat) (answer : String → String) (extra : Terminal)
    (hall : ∀ f ∈ data, f.Tag ≠ "") (hnd : (lookupNames data).Nodup)
    (hne : ∀ f ∈ missingFields flags data, answer (lookupName f) ≠ "") :
    PopulateArgs T flags data
        (typedAnswers retries answer (lookupNames (missingFields flags data)) ++ extra)
      = ⟨none, data.map (resolved flags (fun n => ToLower T (answer n))), extra,
          shownSteps retries (lookupNames (missingFields flags data))⟩ := by
  unfold PopulateArgs
  rw [scanFields_questions, scanFields_data, missing_questions]
  rw [Ask_typed T retries answer _ _ extra (missing_nodup flags data hnd)
    (tagged_map_fromFlags flags data hall)
    (by rw [lookupNames_map_fromFlags]; exact hnd) (missing_mem flags data)]
  · rw [map_assign_fromFlags]
  · intro n hn
    simp only [lookupNames, List.mem_map] at hn
    obtain ⟨f, hf, rfl⟩ := hn
    exact hne f hf

theorem PopulateArgs_accepted (T : CaseTable) (flags : FlagMap) (data : Record) (term : Terminal)
    (hall : ∀ f ∈ data, f.Tag ≠ "") (hnd : (lookupNames data).Nodup)
    (herr : (PopulateArgs T flags data term).err = none) :
    ∃ vals : String → String, (∀ f ∈ missingFields flags data, vals (lookupName f) ≠ "") ∧
      (PopulateArgs T flags data term).data = data.map (resolved flags vals) := by
  unfold PopulateArgs at herr ⊢
  rw [scanFields_questions, scanFields_data, missing_questions] at herr ⊢
  obtain ⟨vals, hvals, hdata⟩ := Ask_accepted T _ _ term (missing_nodup flags data hnd)
    (tagged_map_fromFlags flags data hall)
    (by rw [lookupNames_map_fromFlags]; exact hnd) (missing_mem flags data) herr
  refine ⟨vals, ?_, ?_⟩
  · intro f hf
    exact hvals _ (List.mem_map_of_mem lookupName hf)
  · rw [hdata, map_assign_fromFlags]

theorem missingFields_eq_nil (flags : FlagMap) (data : Record)
    (h : ∀ f ∈ data, flags.get (lookupName f) ≠ none) : missingFields flags data = [] := by
  unfold missingFields
  rw [List.filter_eq_nil_iff]
  intro f hf
  have := h f hf
  cases hg : flags.get (lookupName f) with
  | none => exact absurd hg this
  | some v => simp

/-! ## The batch on an arbitrary record -/

theorem findFieldIndex_setValue (T : CaseTable) (d : Record) (t : Nat) (v n : String) :
    findFieldIndex T (setValue d t v) n = findFieldIndex T d n :=
  findFieldIndex_shape T n _ _ (shape_setValue v d t)

theorem Ask_cons_error (T : CaseTable) (q : Question) (qs : List Question) (d : Record)
    (term rest : Terminal) (e : Error) (tr : List Event)
    (hr : readAnswer q term = (.error e, rest, tr)) :
    (Ask T (q :: qs) d term).err = some e := by
  simp only [Ask, hr]

theorem Ask_cons_unfound (T : CaseTable) (n : String) (qs : List Question) (d : Record)
    (term rest : Terminal) (a : String) (tr : List Event)
    (hr : readAnswer (questionNamed T n) term = (.ok a, rest, tr))
    (hf : findFieldIndex T d n = none) :
    (Ask T (questionNamed T n :: qs) d term).err ≠ none := by
  have ht : (questionNamed T n).Transform = some (ToLower T) := rfl
  have hw : WriteAnswer T d (questionNamed T n).Name (ToLower T a)
      = .error ⟨"could not find field matching " ++ n⟩ := by
    simp only [WriteAnswer, questionNamed, hf]
  simp only [Ask, hr, ht, hw]
  exact fun h => Option.noConfusion h

theorem Ask_cons_found (T : CaseTable) (n : String) (qs : List Question) (d : Record)
    (term rest : Terminal) (a : String) (tr : List Event) (t : Nat)
    (hr : readAnswer (questionNamed T n) term = (.ok a, rest, tr))
    (hf : findFieldIndex T d n = some t) :
    Ask T (questionNamed T n :: qs) d term
      = ⟨(Ask T qs (setValue d t (ToLower T a)) rest).err,
          (Ask T qs (setValue d t (ToLower T a)) rest).data,
          (Ask T qs (setValue d t (ToLower T a)) rest).rest,
          tr ++ (Ask T qs (setValue d t (ToLower T a)) rest).trace⟩ :=
  Ask_cons_ok T (questionNamed T n) qs d _ term rest a tr (ToLower T) hr rfl
    (by simp only [WriteAnswer, questionNamed, hf])

theorem Ask_fields (T : CaseTable) :
    ∀ (ns : List String) (d : Record) (term : Terminal),
      (Ask T (ns.map (questionNamed T)) d term).err = none →
      (Ask T (ns.map (questionNamed T)) d term).data.map shape = d.map shape ∧
      ∀ i : Nat,
        ((∀ n ∈ ns, findFieldIndex T d n ≠ some i) →
          (Ask T (ns.map (questionNamed T)) d term).data[i]? = d[i]?) ∧
        ((∃ n ∈ ns, findFieldIndex T d n = some i) →
          ∃ g, (Ask T (ns.map (questionNamed T)) d term).data[i]? = some g ∧ g.Value ≠ "") := by
  intro ns
  induction ns with
  | nil =>
    intro d term _
    refine ⟨rfl, fun i => ⟨fun _ => rfl, ?_⟩⟩
    rintro ⟨n, hn, _⟩
    cases hn
  | cons n ns ih =>
    intro d term herr
    rcases hr : readAnswer (questionNamed T n) term with ⟨r, rest, tr⟩
    cases r with
    | error e =>
      rw [List.map_cons, Ask_cons_error T _ _ d term rest e tr hr] at herr
      cases herr
    | ok a =>
      have ha : a ≠ "" := readAnswer_accepts (questionNamed T n) rfl term a (by rw [hr])
      cases hf : findFieldIndex T d n with
      | none => exact absurd herr (Ask_cons_unfound T n _ d term rest a tr hr hf)
      | some t =>
        rw [List.map_cons, Ask_cons_found T n _ d term rest a tr t hr hf] at herr ⊢
        obtain ⟨hshape, hvals⟩ := ih (setValue d t (ToLower T a)) rest herr
        refine ⟨by rw [hshape, shape_setValue], fun i => ⟨?_, ?_⟩⟩
        · intro hno
          have hti : i ≠ t := by
            intro h
            exact hno n (List.mem_cons_self n ns) (by rw [hf, h])
          show (Ask T (ns.map (questionNamed T)) _ rest).data[i]? = _
          rw [(hvals i).1 (fun m hm => by
            rw [findFieldIndex_setValue]
            exact hno m (List.mem_cons_of_mem n hm))]
          exact getElem?_setValue_other _ d t i hti
        · rintro ⟨m, hm, hmi⟩
          show ∃ g, (Ask T (ns.map (questionNamed T)) _ rest).data[i]? = some g ∧ _
          by_cases hlater : ∃ m1 ∈ ns, findFieldIndex T d m1 = some i
          · obtain ⟨m1, hm1, hm1i⟩ := hlater
            exact (hvals i).2 ⟨m1, hm1, by rw [findFieldIndex_setValue]; exact hm1i⟩
          · have hmn : m = n := by
              rcases List.mem_cons.mp hm with h | h
              · exact h
              · exact absurd ⟨m, h, hmi⟩ hlater
            subst hmn
            have hti : t = i := by
              rw [hf] at hmi
              exact Option.some.inj hmi
            subst hti
            rw [(hvals t).1 (fun m1 hm1 => by
              rw [findFieldIndex_setValue]
              exact fun h => hlater ⟨m1, hm1, h⟩)]
            rw [getElem?_setValue_self]
            have hlt := findFieldIndex_lt T m d t hf
            rw [List.getElem?_eq_getElem hlt]
            exact ⟨_, rfl, ToLower_ne_empty T a ha⟩

theorem typedInOrder_succ (retries : Nat → Nat) (answer : Nat → String) (j k : Nat)
    (extra : Terminal) :
    typedInOrder retries answer j (k + 1) ++ extra
      = List.replicate (retries j) (.ok "") ++ .ok (answer j) ::
          (typedInOrder retries answer (j + 1) k ++ extra) := by
  simp [typedInOrder]

theorem Ask_inOrder_run (T : CaseTable) (retries : Nat → Nat) (answer : Nat → String) :
    ∀ (ns : List String) (d : Record) (j : Nat) (extra : Terminal),
      (∀ n ∈ ns, (findFieldIndex T d n).isSome = true) →
      (∀ i, j ≤ i → i < j + ns.length → answer i ≠ "") →
      (Ask T (ns.map (questionNamed T)) d
          (typedInOrder retries answer j ns.length ++ extra)).err = none ∧
      (Ask T (ns.map (questionNamed T)) d
          (typedInOrder retries answer j ns.length ++ extra)).rest = extra ∧
      (Ask T (ns.map (questionNamed T)) d
          (typedInOrder retries answer j ns.length ++ extra)).trace = shownInOrder retries j ns := by
  intro ns
  induction ns with
  | nil =>
    intro d j extra _ _
    simp [Ask, typedInOrder, shownInOrder]
  | cons n ns ih =>
    intro d j extra hfound hne
    have hsome := hfound n (List.mem_cons_self n ns)
    cases hf : findFieldIndex T d n with
    | none => rw [hf] at hsome; cases hsome
    | some t =>
      have hr := readAnswer_rejected (questionNamed T n) rfl (answer j)
        (hne j (Nat.le_refl j) (by simp)) (typedInOrder retries answer (j + 1) ns.length ++ extra)
        (retries j)
      rw [List.map_cons, List.length_cons, typedInOrder_succ,
        Ask_cons_found T n _ d _ _ _ _ t hr hf]
      obtain ⟨h1, h2, h3⟩ := ih (setValue d t (ToLower T (answer j))) (j + 1) extra
        (fun m hm => by
          rw [findFieldIndex_setValue]
          exact hfound m (List.mem_cons_of_mem n hm))
        (fun i hi1 hi2 => hne i (by omega) (by simp only [List.length_cons]; omega))
      refine ⟨h1, h2, ?_⟩
      show _ ++ _ = _
      rw [h3]
      simp [shownInOrder, questionNamed]

theorem setValue_twice (f : StructField) (v w : String) :
    ({ ({ f with Value := v } : StructField) with Value := w } : StructField)
      = { f with Value := w } := rfl

theorem Ask_inOrder_stored (T : CaseTable) (retries : Nat → Nat) (answer : Nat → String) :
    ∀ (ns : List String) (d : Record) (j : Nat) (extra : Terminal),
      (∀ n ∈ ns, (findFieldIndex T d n).isSome = true) →
      (∀ i, j ≤ i → i < j + ns.length → answer i ≠ "") →
      ∀ (k : Nat) (n : String) (i : Nat), ns[k]? = some n → findFieldIndex T d n = some i →
        (∀ (k1 : Nat) (m : String), k < k1 → ns[k1]? = some m → findFieldIndex T d m ≠ some i) →
        (Ask T (ns.map (questionNamed T)) d
            (typedInOrder retries answer j ns.length ++ extra)).data[i]?
          = d[i]?.map (fun f => { f with Value := ToLower T (answer (j + k)) }) := by
  intro ns
  induction ns with
  | nil =>
    intro d j extra _ _ k n i hk
    simp at hk
  | cons n0 ns ih =>
    intro d j extra hfound hne k n i hk hfi hlater
    have hsome := hfound n0 (List.mem_cons_self n0 ns)
    cases hf : findFieldIndex T d n0 with
    | none => rw [hf] at hsome; cases hsome
    | some t =>
      have hr := readAnswer_rejected (questionNamed T n0) rfl (answer j)
        (hne j (Nat.le_refl j) (by simp)) (typedInOrder retries answer (j + 1) ns.length ++ extra)
        (retries j)
      have hfound1 : ∀ m ∈ ns,
          (findFieldIndex T (setValue d t (ToLower T (answer j))) m).isSome = true := by
        intro m hm
        rw [findFieldIndex_setValue]
        exact hfound m (List.mem_cons_of_mem n0 hm)
      have hne1 : ∀ i, j + 1 ≤ i → i < j + 1 + ns.length → answer i ≠ "" :=
        fun i hi1 hi2 => hne i (by omega) (by simp only [List.length_cons]; omega)
      rw [List.map_cons, List.length_cons, typedInOrder_succ,
        Ask_cons_found T n0 _ d _ _ _ _ t hr hf]
      show (Ask T (ns.map (questionNamed T)) _ _).data[i]? = _
      cases k with
      | zero =>
        simp only [List.getElem?_cons_zero, Option.some.injEq] at hk
        subst hk
        have hti : t = i := by
          rw [hf] at hfi
          exact Option.some.inj hfi
        subst hti
        have herr := (Ask_inOrder_run T retries answer ns
          (setValue d t (ToLower T (answer j))) (j + 1) extra hfound1 hne1).1
        have hno : ∀ m ∈ ns,
            findFieldIndex T (setValue d t (ToLower T (answer j))) m ≠ some t := by
          intro m hm
          rw [findFieldIndex_setValue]
          obtain ⟨k1, hk1⟩ := List.getElem?_of_mem hm
          exact hlater (k1 + 1) m (by omega) (by simpa using hk1)
        rw [((Ask_fields T ns _ _ herr).2 t).1 hno, getElem?_setValue_self]
        rfl
      | succ k =>
        simp only [List.getElem?_cons_succ] at hk
        have := ih (setValue d t (ToLower T (answer j))) (j + 1) extra hfound1 hne1 k n i hk
          (by rw [findFieldIndex_setValue]; exact hfi)
          (fun k1 m hk1 hm => by
            rw [findFieldIndex_setValue]
            exact hlater (k1 + 1) m (by omega) (by simpa using hm))
        rw [this]
        have hidx : j + 1 + k = j + (k + 1) := by omega
        rw [hidx]
        by_cases hti : i = t
        · subst hti
          rw [getElem?_setValue_self, Option.map_map]
          rfl
        · rw [getElem?_setValue_other _ d t i hti]

/-! ## Lemmas on the actions -/

theorem readAnswer_interactive (q : Question) :
    ∀ term : Terminal, ∀ ev ∈ (readAnswer q term).2.2, ev.interactive = true := by
  intro term
  induction term with
  | nil => intro ev h; simp [readAnswer] at h; subst h; rfl
  | cons x rest ih =>
    cases x with
    | error e => intro ev h; simp [readAnswer] at h; subst h; rfl
    | ok ans =>
      intro ev h
      simp only [readAnswer] at h
      split at h
      · simp at h; subst h; rfl
      · simp only [List.mem_cons] at h
        rcases h with h | h | h
        · subst h; rfl
        · subst h; rfl
        · exact ih ev h

theorem Ask_interactive (T : CaseTable) :
    ∀ (qs : List Question) (d : Record) (term : Terminal),
      ∀ ev ∈ (Ask T qs d term).trace, ev.interactive = true := by
  intro qs
  induction qs with
  | nil => intro d term ev h; simp [Ask] at h
  | cons q qs ih =>
    intro d term ev h
    have hq := readAnswer_interactive q term
    rcases hr : readAnswer q term with ⟨r, rest, tr⟩
    rw [hr] at hq
    simp only [Ask, hr] at h
    cases r with
    | error e => exact hq ev h
    | ok a =>
      simp only at h
      split at h
      · exact hq ev h
      · simp only [List.mem_append] at h
        rcases h with h | h
        · exact hq ev h
        · exact ih _ _ ev h

theorem PopulateArgs_interactive (T : CaseTable) (flags : FlagMap) (data : Record) (term : Terminal) :
    ∀ ev ∈ (PopulateArgs T flags data term).trace, ev.interactive = true :=
  Ask_interactive T _ _ _

theorem remoteCalls_interactive (tr : List Event) (h : ∀ ev ∈ tr, ev.interactive = true) :
    remoteCalls tr = [] := by
  unfold remoteCalls
  rw [List.filterMap_eq_nil_iff]
  intro ev hev
  have := h ev hev
  cases ev <;> simp_all [Event.interactive]

theorem clients_interactive (tr : List Event) (h : ∀ ev ∈ tr, ev.interactive = true) :
    clients tr = [] := by
  unfold clients
  rw [List.filterMap_eq_nil_iff]
  intro ev hev
  have := h ev hev
  cases ev <;> simp_all [Event.interactive]

theorem printed_interactive (tr : List Event) (h : ∀ ev ∈ tr, ev.interactive = true) :
    printed tr = [] := by
  unfold printed
  rw [List.filter_eq_nil_iff]
  intro ev hev
  have := h ev hev
  cases ev <;> simp_all [Event.interactive]

theorem getCredAction_shape (T : CaseTable) :
    getCredAction T = actionShape T getCredResults (actionRequest "getCred") .printf := rfl

theorem listCredsAction_shape (T : CaseTable) :
    listCredsAction T = actionShape T listCredsResults (actionRequest "listCreds") .printf := rfl

theorem updateCredAction_shape (T : CaseTable) :
    updateCredAction T = actionShape T updateCredResults (actionRequest "updateCred") .printf := rfl

theorem uploadCredAction_shape (T : CaseTable) :
    uploadCredAction T = actionShape T uploadCredResults (actionRequest "uploadCred") .printf := rfl

theorem deleteCredAction_shape (T : CaseTable) :
    deleteCredAction T
      = actionShape T deleteCredResults (actionRequest "deleteCred") (fun resp => .println resp.Status) :=
  rfl

theorem actionShape_populate_error (T : CaseTable) (results : Record) (request : Record → Op)
    (shown : Reply → Event) (flags : FlagMap) (term : Terminal) (remote : Remote) (e : Error)
    (h : (PopulateArgs T flags results term).err = some e) :
    actionShape T results request shown flags term remote
      = ⟨some e, (PopulateArgs T flags results term).trace⟩ := by
  simp only [actionShape, h]

theorem actionShape_remote_error (T : CaseTable) (results : Record) (request : Record → Op)
    (shown : Reply → Event) (flags : FlagMap) (term : Terminal) (remote : Remote) (e : Error)
    (h : (PopulateArgs T flags results term).err = none)
    (hr : remote (fieldValue (PopulateArgs T flags results term).data "ApiKey")
        (fieldValue (PopulateArgs T flags results term).data "OrgId")
        (request (PopulateArgs T flags results term).data) = .error e) :
    actionShape T results request shown flags term remote
      = ⟨some e, (PopulateArgs T flags results term).trace ++
          [.newService (fieldValue (PopulateArgs T flags results term).data "ApiKey")
              (fieldValue (PopulateArgs T flags results term).data "OrgId"),
            .call (request (PopulateArgs T flags results term).data)]⟩ := by
  simp only [actionShape, h, hr]

theorem actionShape_remote_ok (T : CaseTable) (results : Record) (request : Record → Op)
    (shown : Reply → Event) (flags : FlagMap) (term : Terminal) (remote : Remote) (reply : Reply)
    (h : (PopulateArgs T flags results term).err = none)
    (hr : remote (fieldValue (PopulateArgs T flags results term).data "ApiKey")
        (fieldValue (PopulateArgs T flags results term).data "OrgId")
        (request (PopulateArgs T flags results term).data) = .ok reply) :
    actionShape T results request shown flags term remote
      = ⟨none, (PopulateArgs T flags results term).trace ++
          [.newService (fieldValue (PopulateArgs T flags results term).data "ApiKey")
              (fieldValue (PopulateArgs T flags results term).data "OrgId"),
            .call (request (PopulateArgs T flags results term).data), shown reply]⟩ := by
  simp only [actionShape, h, hr]

theorem actionShape_trace (T : CaseTable) (results : Record) (request : Record → Op)
    (shown : Reply → Event) (flags : FlagMap) (term : Terminal) (remote : Remote)
    (h : (PopulateArgs T flags results term).err = none) :
    (actionShape T results request shown flags term remote).trace
      = (PopulateArgs T flags results term).trace ++
          [.newService (fieldValue (PopulateArgs T flags results term).data "ApiKey")
              (fieldValue (PopulateArgs T flags results term).data "OrgId"),
            .call (request (PopulateArgs T flags results term).data)] ++
          (match remote (fieldValue (PopulateArgs T flags results term).data "ApiKey")
              (fieldValue (PopulateArgs T flags results term).data "OrgId")
              (request (PopulateArgs T flags results term).data) with
            | .ok reply => [shown reply]
            | .error _ => []) := by
  cases hr : remote (fieldValue (PopulateArgs T flags results term).data "ApiKey")
      (fieldValue (PopulateArgs T flags results term).data "OrgId")
      (request (PopulateArgs T flags results term).data) with
  | error e => rw [actionShape_remote_error T _ _ _ _ _ _ e h hr]; simp
  | ok reply => rw [actionShape_remote_ok T _ _ _ _ _ _ reply h hr]; simp

theorem remoteCalls_append (a b : List Event) : remoteCalls (a ++ b) = remoteCalls a ++ remoteCalls b := by
  simp [remoteCalls, List.filterMap_append]

theorem clients_append (a b : List Event) : clients (a ++ b) = clients a ++ clients b := by
  simp [clients, List.filterMap_append]

theorem printed_append (a b : List Event) : printed (a ++ b) = printed a ++ printed b := by
  simp [printed, List.filter_append]

theorem actionShape_calls (T : CaseTable) (results : Record) (request : Record → Op)
    (shown : Reply → Event) (hshown : ∀ r, printed [shown r] = [shown r])
    (flags : FlagMap) (term : Terminal) (remote : Remote)
    (h : (PopulateArgs T flags results term).err = none) :
    clients (actionShape T results request shown flags term remote).trace
      = [(fieldValue (PopulateArgs T flags results term).data "ApiKey",
          fieldValue (PopulateArgs T flags results term).data "OrgId")] ∧
    remoteCalls (actionShape T results request shown flags term remote).trace
      = [request (PopulateArgs T flags results term).data] := by
  have hi := PopulateArgs_interactive T flags results term
  rw [actionShape_trace T _ _ _ _ _ _ h]
  have hs : ∀ r, clients [shown r] = [] ∧ remoteCalls [shown r] = [] := by
    intro r
    have := hshown r
    cases hsr : shown r <;> simp_all [printed, clients, remoteCalls]
  constructor
  · rw [clients_append, clients_append, clients_interactive _ hi]
    split
    · rename_i reply _
      rw [(hs reply).1]; rfl
    · rfl
  · rw [remoteCalls_append, remoteCalls_append, remoteCalls_interactive _ hi]
    split
    · rename_i reply _
      rw [(hs reply).2]; rfl
    · rfl

theorem actionShape_printed (T : CaseTable) (results : Record) (request : Record → Op)
    (shown : Reply → Event) (hshown : ∀ r, printed [shown r] = [shown r])
    (flags : FlagMap) (term : Terminal) (remote : Remote) (reply : Reply)
    (h : (PopulateArgs T flags results term).err = none)
    (hr : remote (fieldValue (PopulateArgs T flags results term).data "ApiKey")
        (fieldValue (PopulateArgs T flags results term).data "OrgId")
        (request (PopulateArgs T flags results term).data) = .ok reply) :
    printed (actionShape T results request shown flags term remote).trace = [shown reply] := by
  have hi := PopulateArgs_interactive T flags results term
  rw [actionShape_remote_ok T _ _ _ _ _ _ reply h hr]
  show printed (_ ++ ([_, _] ++ [shown reply])) = _
  rw [printed_append, printed_append, printed_interactive _ hi, hshown]
  rfl

theorem resolved_Name (flags : FlagMap) (vals : String → String) (f : StructField) :
    (resolved flags vals f).Name = f.Name := by
  unfold resolved
  split <;> rfl

theorem fieldValue_map_resolved (flags : FlagMap) (vals : String → String) (name : String) :
    ∀ data : Record, fieldValue (data.map (resolved flags vals)) name
      = match data.find? (fun f => f.Name = name) with
        | some f => (resolved flags vals f).Value
        | none => "" := by
  intro data
  induction data with
  | nil => rfl
  | cons f fs ih =>
    by_cases hf : f.Name = name
    · simp [fieldValue, List.find?, resolved_Name, hf]
    · simp only [fieldValue, List.map_cons, List.find?, resolved_Name, hf, decide_False] at ih ⊢
      exact ih

/-! ## The record after `PopulateArgs`, for an arbitrary record -/

theorem fromFlags_eq (flags : FlagMap) (f : StructField) :
    fromFlags flags f = { f with Value := scannedValue flags f } := by
  unfold fromFlags scannedValue
  split <;> rfl

theorem shape_map_fromFlags (flags : FlagMap) (data : Record) :
    (data.map (fromFlags flags)).map shape = data.map shape := by
  rw [List.map_map]
  apply List.map_congr_left
  intro f _
  simp only [Function.comp_apply, fromFlags_eq]
  rfl

theorem findFieldIndex_fromFlags (T : CaseTable) (flags : FlagMap) (data : Record) (n : String) :
    findFieldIndex T (data.map (fromFlags flags)) n = findFieldIndex T data n :=
  findFieldIndex_shape T n _ _ (shape_map_fromFlags flags data)

theorem getElem?_append_length (l1 l2 : List String) (a : String) :
    (l1 ++ a :: l2)[l1.length]? = some a := by
  induction l1 with
  | nil => simp
  | cons x xs ih => simpa using ih

theorem getElem?_record_length (l1 l2 : Record) (a : StructField) :
    (l1 ++ a :: l2)[l1.length]? = some a := by
  induction l1 with
  | nil => simp
  | cons x xs ih => simpa using ih

theorem mem_of_getElem?_append_gt (l2 : List String) (a : String) :
    ∀ (l1 : List String) (k : Nat) (m : String), l1.length < k → (l1 ++ a :: l2)[k]? = some m →
      m ∈ l2 := by
  intro l1
  induction l1 with
  | nil =>
    intro k m hk h
    cases k with
    | zero => simp at hk
    | succ k =>
      simp only [List.nil_append, List.getElem?_cons_succ] at h
      exact List.getElem?_mem h
  | cons x xs ih =>
    intro k m hk h
    cases k with
    | zero => simp at hk
    | succ k =>
      simp only [List.cons_append, List.getElem?_cons_succ] at h
      exact ih k m (by simpa using hk) h

theorem missingFields_append (flags : FlagMap) (pre post : Record) (F : StructField)
    (hF : flags.get (lookupName F) = none) :
    missingFields flags (pre ++ F :: post)
      = missingFields flags pre ++ F :: missingFields flags post := by
  simp [missingFields, List.filter_append, List.filter_cons, hF]

theorem missing_found (T : CaseTable) (flags : FlagMap) (data : Record) :
    ∀ n ∈ lookupNames (missingFields flags data),
      (findFieldIndex T (data.map (fromFlags flags)) n).isSome = true := by
  intro n hn
  rw [findFieldIndex_fromFlags]
  simp only [lookupNames, missingFields, List.mem_map, List.mem_filter] at hn
  obtain ⟨f, ⟨hf, _⟩, rfl⟩ := hn
  exact findFieldIndex_lookupName T data f hf

theorem PopulateArgs_fields (T : CaseTable) (flags : FlagMap) (data : Record) (term : Terminal)
    (herr : (PopulateArgs T flags data term).err = none) :
    (PopulateArgs T flags data term).data.map shape = data.map shape ∧
    ∀ i : Nat,
      ((∀ G ∈ missingFields flags data, findFieldIndex T data (lookupName G) ≠ some i) →
        (PopulateArgs T flags data term).data[i]? = (data.map (fromFlags flags))[i]?) ∧
      ((∃ G ∈ missingFields flags data, findFieldIndex T data (lookupName G) = some i) →
        ∃ g, (PopulateArgs T flags data term).data[i]? = some g ∧ g.Value ≠ "") := by
  unfold PopulateArgs at herr ⊢
  rw [scanFields_questions, scanFields_data, missing_questions] at herr ⊢
  obtain ⟨hshape, hvals⟩ := Ask_fields T _ _ term herr
  refine ⟨by rw [hshape, shape_map_fromFlags], fun i => ⟨?_, ?_⟩⟩
  · intro hno
    apply (hvals i).1
    intro n hn
    rw [findFieldIndex_fromFlags]
    simp only [lookupNames, List.mem_map] at hn
    obtain ⟨G, hG, rfl⟩ := hn
    exact hno G hG
  · rintro ⟨G, hG, hGi⟩
    apply (hvals i).2
    exact ⟨lookupName G, List.mem_map_of_mem lookupName hG,
      by rw [findFieldIndex_fromFlags]; exact hGi⟩

theorem PopulateArgs_inOrder_run (T : CaseTable) (flags : FlagMap) (data : Record)
    (retries : Nat → Nat) (answer : Nat → String) (extra : Terminal)
    (hne : ∀ i, i < (missingFields flags data).length → answer i ≠ "") :
    (PopulateArgs T flags data
      (typedInOrder retries answer 0 (missingFields flags data).length ++ extra)).err = none ∧
    (PopulateArgs T flags data
      (typedInOrder retries answer 0 (missingFields flags data).length ++ extra)).rest = extra ∧
    (PopulateArgs T flags data
      (typedInOrder retries answer 0 (missingFields flags data).length ++ extra)).trace
      = shownInOrder retries 0 (lookupNames (missingFields flags data)) := by
  have hlen : (lookupNames (missingFields flags data)).length = (missingFields flags data).length := by
    simp [lookupNames]
  have h := Ask_inOrder_run T retries answer (lookupNames (missingFields flags data))
    (data.map (fromFlags flags)) 0 extra (missing_found T flags data)
    (fun i _ hi => hne i (by rw [hlen] at hi; omega))
  rw [hlen] at h
  unfold PopulateArgs
  rw [scanFields_questions, scanFields_data, missing_questions]
  exact h

theorem PopulateArgs_inOrder_stored (T : CaseTable) (flags : FlagMap) (pre : Record)
    (F : StructField) (post : Record) (retries : Nat → Nat) (answer : Nat → String)
    (extra : Terminal) (hF : flags.get (lookupName F) = none)
    (hne : ∀ i, i < (missingFields flags (pre ++ F :: post)).length → answer i ≠ "")
    (hsel : findFieldIndex T (pre ++ F :: post) (lookupName F) = some pre.length)
    (hlater : ∀ G ∈ missingFields flags post,
      findFieldIndex T (pre ++ F :: post) (lookupName G) ≠ some pre.length) :
    (PopulateArgs T flags (pre ++ F :: post)
      (typedInOrder retries answer 0 (missingFields flags (pre ++ F :: post)).length
        ++ extra)).data[pre.length]?
      = some { F with Value := ToLower T (answer (missingFields flags pre).length) } := by
  have hlen : (lookupNames (missingFields flags (pre ++ F :: post))).length
      = (missingFields flags (pre ++ F :: post)).length := by
    simp [lookupNames]
  have hnames : lookupNames (missingFields flags (pre ++ F :: post))
      = lookupNames (missingFields flags pre) ++ lookupName F ::
          lookupNames (missingFields flags post) := by
    rw [missingFields_append flags pre post F hF]
    simp [lookupNames]
  have hk : (lookupNames (missingFields flags (pre ++ F :: post)))[(missingFields flags pre).length]?
      = some (lookupName F) := by
    rw [hnames]
    have := getElem?_append_length (lookupNames (missingFields flags pre))
      (lookupNames (missingFields flags post)) (lookupName F)
    simpa [lookupNames] using this
  have h := Ask_inOrder_stored T retries answer (lookupNames (missingFields flags (pre ++ F :: post)))
    ((pre ++ F :: post).map (fromFlags flags)) 0 extra (missing_found T flags _)
    (fun i _ hi => hne i (by rw [hlen] at hi; omega))
    (missingFields flags pre).length (lookupName F) pre.length hk
    (by rw [findFieldIndex_fromFlags]; exact hsel)
    (by
      intro k1 m hk1 hm
      rw [findFieldIndex_fromFlags]
      rw [hnames] at hm
      have hmem := mem_of_getElem?_append_gt _ _ (lookupNames (missingFields flags pre)) k1 m
        (by simpa [lookupNames] using hk1) hm
      simp only [lookupNames, List.mem_map] at hmem
      obtain ⟨G, hG, rfl⟩ := hmem
      exact hlater G hG)
  rw [hlen] at h
  unfold PopulateArgs
  rw [scanFields_questions, scanFields_data, missing_questions, h]
  have hF2 : ((pre ++ F :: post).map (fromFlags flags))[pre.length]? = some (fromFlags flags F) := by
    have := getElem?_record_length (pre.map (fromFlags flags)) (post.map (fromFlags flags))
      (fromFlags flags F)
    simpa using this
  rw [hF2]
  simp [fromFlags, hF]

/-! ## The claims on `PopulateArgs` -/

/-- C1. When the lookup name of every field of the record is a key of `flags`,
`PopulateArgs` accumulates no question, shows nothing and reads nothing on the
terminal, returns no error, and leaves every field, name and tag unchanged,
holding exactly the flag value found under its lookup name. -/
theorem PopulateArgs_all_supplied (T : CaseTable) (flags : FlagMap) (data : Record)
    (term : Terminal) (h : ∀ f ∈ data, flags.get (lookupName f) ≠ none) :
    (scanFields T flags data).2 = [] ∧
    (PopulateArgs T flags data term).err = none ∧
    (PopulateArgs T flags data term).trace = [] ∧
    (PopulateArgs T flags data term).rest = term ∧
    List.Forall₂ (fun f g => g.Name = f.Name ∧ g.Tag = f.Tag ∧
        flags.get (lookupName f) = some g.Value)
      data (PopulateArgs T flags data term).data := by
  have hq : (scanFields T flags data).2 = [] := by
    rw [scanFields_questions, missingFields_eq_nil flags data h]
    rfl
  refine ⟨hq, ?_⟩
  unfold PopulateArgs
  rw [hq, scanFields_data]
  refine ⟨rfl, rfl, rfl, ?_⟩
  show List.Forall₂ _ data (data.map (fromFlags flags))
  rw [List.forall₂_map_right_iff, List.forall₂_same]
  intro f hf
  cases hg : flags.get (lookupName f) with
  | none => exact absurd hg (h f hf)
  | some v => simp [fromFlags, hg]

/-- Witness of C1: the record of `listCreds` with its three flags supplied,
one of them in upper case. -/
theorem PopulateArgs_all_supplied_witness :
    (∀ f ∈ listCredsResults,
      FlagMap.get [("apiKey", "KEY1"), ("orgId", "o"), ("projectId", "p")] (lookupName f) ≠ none) ∧
    (PopulateArgs latin1 [("apiKey", "KEY1"), ("orgId", "o"), ("projectId", "p")]
        listCredsResults []).data
      = [⟨"ApiKey", "apiKey", "KEY1"⟩, ⟨"OrgId", "orgId", "o"⟩, ⟨"ProjectId", "projectId", "p"⟩] ∧
    (scanFields latin1 [("apiKey", "KEY1"), ("orgId", "o"), ("projectId", "p")]
        listCredsResults).2 = [] :=
  ⟨by decide, by decide,
    (PopulateArgs_all_supplied latin1 [("apiKey", "KEY1"), ("orgId", "o"), ("projectId", "p")]
      listCredsResults [] (by decide)).1⟩

/-- C2, amended. For every record `pre ++ F :: post` and every field `F` of it
whose lookup name is not a key of `flags`: one question is accumulated for
each field whose lookup name is not a key of `flags`, in field order, with
`Name` and prompt message equal to that lookup name, the validator
`survey.Required` and the transform `survey.ToLower`, the one for `F` after
those of `pre`. When the operator answers the question of index `i` with
`retries i` empty lines and then the non-empty line `answer i`, each empty
line is rejected and the same question is asked again, and `PopulateArgs`
returns no error. And when the write-back selects `F` for the lookup name of
`F` and does not select it for the lookup name of a field asked after `F`, the
field `F` then holds its own accepted answer lowercased (`ABC` as `abc`). -/
theorem PopulateArgs_missing_field (T : CaseTable) (flags : FlagMap) (pre : Record)
    (F : StructField) (post : Record) (retries : Nat → Nat) (answer : Nat → String)
    (extra : Terminal) (hF : flags.get (lookupName F) = none)
    (hne : ∀ i, i < (missingFields flags (pre ++ F :: post)).length → answer i ≠ "") :
    (scanFields T flags (pre ++ F :: post)).2
      = (missingFields flags (pre ++ F :: post)).map
          (fun f => ⟨lookupName f, lookupName f, some Required, some (ToLower T)⟩) ∧
    missingFields flags (pre ++ F :: post)
      = missingFields flags pre ++ F :: missingFields flags post ∧
    (PopulateArgs T flags (pre ++ F :: post)
      (typedInOrder retries answer 0 (missingFields flags (pre ++ F :: post)).length
        ++ extra)).err = none ∧
    (PopulateArgs T flags (pre ++ F :: post)
      (typedInOrder retries answer 0 (missingFields flags (pre ++ F :: post)).length
        ++ extra)).rest = extra ∧
    (PopulateArgs T flags (pre ++ F :: post)
      (typedInOrder retries answer 0 (missingFields flags (pre ++ F :: post)).length
        ++ extra)).trace
      = shownInOrder retries 0 (lookupNames (missingFields flags (pre ++ F :: post))) ∧
    ToLower T "ABC" = "abc" ∧
    (findFieldIndex T (pre ++ F :: post) (lookupName F) = some pre.length →
      (∀ G ∈ missingFields flags post,
        findFieldIndex T (pre ++ F :: post) (lookupName G) ≠ some pre.length) →
      (PopulateArgs T flags (pre ++ F :: post)
        (typedInOrder retries answer 0 (missingFields flags (pre ++ F :: post)).length
          ++ extra)).data[pre.length]?
        = some { F with Value := ToLower T (answer (missingFields flags pre).length) }) := by
  have hrun := PopulateArgs_inOrder_run T flags (pre ++ F :: post) retries answer extra hne
  refine ⟨scanFields_questions T flags _, missingFields_append flags pre post F hF,
    hrun.1, hrun.2.1, hrun.2.2, rfl, ?_⟩
  intro hsel hlater
  exact PopulateArgs_inOrder_stored T flags pre F post retries answer extra hF hne hsel hlater

/-- Witness of C2: `listCreds` with only `projectId` supplied, the field `F`
being `OrgId`; the question `apiKey` is answered `ABC`, the question `orgId`
first with the empty line and then with `ÉCOLE`, stored as `école`. -/
theorem PopulateArgs_missing_field_witness :
    FlagMap.get [("projectId", "p")] (lookupName ⟨"OrgId", "orgId", ""⟩) = none ∧
    PopulateArgs latin1 [("projectId", "p")] listCredsResults
        [.ok "ABC", .ok "", .ok "ÉCOLE"]
      = ⟨none,
          [⟨"ApiKey", "apiKey", "abc"⟩, ⟨"OrgId", "orgId", "école"⟩,
            ⟨"ProjectId", "projectId", "p"⟩],
          [],
          [.prompt "apiKey", .prompt "orgId", .invalid "orgId" ⟨"Value is required"⟩,
            .prompt "orgId"]⟩ ∧
    (PopulateArgs latin1 [("projectId", "p")] listCredsResults
        [.ok "ABC", .ok "", .ok "ÉCOLE"]).data[1]? = some ⟨"OrgId", "orgId", "école"⟩ :=
  ⟨by decide, rfl,
    (PopulateArgs_missing_field latin1 [("projectId", "p")] [⟨"ApiKey", "apiKey", ""⟩]
      ⟨"OrgId", "orgId", ""⟩ [⟨"ProjectId", "projectId", ""⟩]
      (fun i => if i = 1 then 1 else 0) (fun i => if i = 0 then "ABC" else "ÉCOLE") []
      (by decide) (by decide)).2.2.2.2.2.2 (by decide) (by decide)⟩

/-- Counterexample to C2 as stated: in a record with two fields under one
`survey` tag and no flag, two questions of that name are accumulated and both
are answered; the write-back selects the first field for both, so the second
field, whose question was answered `DEF`, stays empty, and the first field
holds the answer given to the second question. -/
theorem PopulateArgs_shared_lookup_name :
    missingFields [] sharedTagRecord = sharedTagRecord ∧
    (scanFields latin1 [] sharedTagRecord).2.map Question.Name = ["x", "x"] ∧
    findFieldIndex latin1 sharedTagRecord "x" = some 0 ∧
    (PopulateArgs latin1 [] sharedTagRecord [.ok "ABC", .ok "DEF"]).err = none ∧
    (PopulateArgs latin1 [] sharedTagRecord [.ok "ABC", .ok "DEF"]).data
      = [⟨"First", "x", "def"⟩, ⟨"Second", "x", ""⟩] ∧
    fieldValue (PopulateArgs latin1 [] sharedTagRecord [.ok "ABC", .ok "DEF"]).data "First"
      ≠ ToLower latin1 "ABC" ∧
    fieldValue (PopulateArgs latin1 [] sharedTagRecord [.ok "ABC", .ok "DEF"]).data "Second"
      ≠ ToLower latin1 "DEF" := by
  decide

/-- C3, amended. Whenever `PopulateArgs` returns without error, every field
keeps its name and tag; every field that the write-back selects for the
lookup name of a field whose lookup name is not a key of `flags` holds a
non-empty string; and every other field holds exactly the value of the flag
under its lookup name when that name is a key of `flags`, whatever that value
is, and its value as passed in otherwise. -/
theorem PopulateArgs_populated (T : CaseTable) (flags : FlagMap) (data : Record)
    (term : Terminal) (herr : (PopulateArgs T flags data term).err = none) :
    (PopulateArgs T flags data term).data.map shape = data.map shape ∧
    ∀ (i : Nat) (f : StructField), data[i]? = some f →
      ((∃ G ∈ missingFields flags data, findFieldIndex T data (lookupName G) = some i) →
        ∃ g, (PopulateArgs T flags data term).data[i]? = some g ∧ g.Value ≠ "") ∧
      ((∀ G ∈ missingFields flags data, findFieldIndex T data (lookupName G) ≠ some i) →
        (PopulateArgs T flags data term).data[i]?
          = some { f with Value :=
              match flags.get (lookupName f) with
              | some val => val
              | none => f.Value }) := by
  obtain ⟨hshape, hvals⟩ := PopulateArgs_fields T flags data term herr
  refine ⟨hshape, ?_⟩
  intro i f hf
  refine ⟨(hvals i).2, ?_⟩
  intro hno
  rw [(hvals i).1 hno, List.getElem?_map, hf, Option.map_some', fromFlags_eq]
  rfl

/-- Witness of C3: `listCreds` with `projectId` supplied as the empty string
and the two other fields answered on the terminal: the field `ProjectId` holds
the empty flag value, the field `ApiKey` a non-empty string. -/
theorem PopulateArgs_populated_witness :
    (PopulateArgs latin1 [("projectId", "")] listCredsResults [.ok "KEY1", .ok "ORG1"]).err
      = none ∧
    (PopulateArgs latin1 [("projectId", "")] listCredsResults [.ok "KEY1", .ok "ORG1"]).data[2]?
      = some ⟨"ProjectId", "projectId", ""⟩ ∧
    ∃ g, (PopulateArgs latin1 [("projectId", "")] listCredsResults
        [.ok "KEY1", .ok "ORG1"]).data[0]? = some g ∧ g.Value ≠ "" :=
  ⟨by decide,
    ((PopulateArgs_populated latin1 [("projectId", "")] listCredsResults
      [.ok "KEY1", .ok "ORG1"] (by decide)).2 2 ⟨"ProjectId", "projectId", ""⟩ rfl).2
      (by decide),
    ((PopulateArgs_populated latin1 [("projectId", "")] listCredsResults
      [.ok "KEY1", .ok "ORG1"] (by decide)).2 0 ⟨"ApiKey", "apiKey", ""⟩ rfl).1
      ⟨⟨"ApiKey", "apiKey", ""⟩, by decide, by decide⟩⟩

/-- Counterexample to C3 as stated, at two runs that return without error.
`listCreds` with all three flags supplied, `projectId` as the empty string:
the field `ProjectId` is the empty string. And two untagged fields `Ab` and
`AB` with the flag `Ab` supplied and the question `AB` answered `two`: the
write-back selects the field `Ab` for the name `AB`, so `Ab` holds the answer
in place of its flag value and `AB` stays empty. -/
theorem PopulateArgs_empty_flag :
    ((PopulateArgs latin1 [("apiKey", "k"), ("orgId", "o"), ("projectId", "")]
        listCredsResults []).err = none ∧
      fieldValue (PopulateArgs latin1 [("apiKey", "k"), ("orgId", "o"), ("projectId", "")]
        listCredsResults []).data "ProjectId" = "" ∧
      ¬ (∀ f ∈ (PopulateArgs latin1 [("apiKey", "k"), ("orgId", "o"), ("projectId", "")]
          listCredsResults []).data, f.Value ≠ "")) ∧
    ((PopulateArgs latin1 [("Ab", "flagged")] caseRecord [.ok "two"]).err = none ∧
      findFieldIndex latin1 caseRecord "AB" = some 0 ∧
      (PopulateArgs latin1 [("Ab", "flagged")] caseRecord [.ok "two"]).data
        = [⟨"Ab", "", "two"⟩, ⟨"AB", "", ""⟩] ∧
      ¬ (∀ f ∈ (PopulateArgs latin1 [("Ab", "flagged")] caseRecord [.ok "two"]).data,
          f.Value ≠ "")) := by
  decide

/-! ## The claims on the actions -/

/-- C6, the code at a run of `updateCred` with all eight fields supplied as
flags: whatever the remote service answers, the one request sent is the update
with the value of `certId` in the second and in the fourth position; the
value of `certPath` is not passed. -/
theorem updateCred_passes_certId_for_certPath (T : CaseTable) (remote : Remote) :
    clients (updateCredAction T updateCredFlags [] remote).trace = [("k", "o")] ∧
    remoteCalls (updateCredAction T updateCredFlags [] remote).trace
      = [.UpdateIOS "p" "cert-1" "l" "cert-1" "app.mobileprovision" "pw"] ∧
    remoteCalls (updateCredAction T updateCredFlags [] remote).trace
      ≠ [.UpdateIOS "p" "cert-1" "l" "dist.p12" "app.mobileprovision" "pw"] := by
  have hpa : PopulateArgs T updateCredFlags updateCredResults []
      = ⟨none,
          [⟨"ApiKey", "apiKey", "k"⟩, ⟨"OrgId", "orgId", "o"⟩, ⟨"ProjectId", "projectId", "p"⟩,
            ⟨"CertId", "certId", "cert-1"⟩, ⟨"Label", "label", "l"⟩,
            ⟨"CertPath", "certPath", "dist.p12"⟩,
            ⟨"ProfilePath", "profilePath", "app.mobileprovision"⟩,
            ⟨"CertPass", "certPass", "pw"⟩],
          [], []⟩ := rfl
  have h : (PopulateArgs T updateCredFlags updateCredResults []).err = none := by rw [hpa]
  have hc := actionShape_calls T updateCredResults (actionRequest "updateCred") .printf
    (fun _ => rfl) updateCredFlags [] remote h
  rw [hpa] at hc
  rw [updateCredAction_shape]
  refine ⟨?_, ?_, ?_⟩
  · rw [hc.1]; decide
  · rw [hc.2]; decide
  · rw [hc.2]; decide

/-- C7. For every project id `p` and all non-empty answers `K` and `O`, the
action of `listCreds` run with the flags `projectId ↦ p` alone and the answers
`K` and `O` prompts for `apiKey` and `orgId`, builds one client, from `K`
lowercased and `O` lowercased by `strings.ToLower`, and sends one request, the
fetch of all credentials of `p`, with `p` unchanged; a reply is then printed.
The answers `KEY1` and `ORG1` are lowercased to `key1` and `org1`. -/
theorem listCreds_scenario (T : CaseTable) (p K O : String) (remote : Remote) (hK : K ≠ "")
    (hO : O ≠ "") :
    clients (listCredsAction T [("projectId", p)] [.ok K, .ok O] remote).trace
      = [(ToLower T K, ToLower T O)] ∧
    remoteCalls (listCredsAction T [("projectId", p)] [.ok K, .ok O] remote).trace
      = [.GetAllIOS p] ∧
    (listCredsAction T [("projectId", p)] [.ok K, .ok O] remote).trace
      = [.prompt "apiKey", .prompt "orgId", .newService (ToLower T K) (ToLower T O),
          .call (.GetAllIOS p)] ++
        (match remote (ToLower T K) (ToLower T O) (.GetAllIOS p) with
          | .ok creds => [.printf creds]
          | .error _ => []) ∧
    ToLower T "KEY1" = "key1" ∧ ToLower T "ORG1" = "org1" := by
  have hm : missingFields [("projectId", p)] listCredsResults
      = [⟨"ApiKey", "apiKey", ""⟩, ⟨"OrgId", "orgId", ""⟩] := rfl
  have hpa : PopulateArgs T [("projectId", p)] listCredsResults [.ok K, .ok O]
      = ⟨none,
          [⟨"ApiKey", "apiKey", ToLower T K⟩, ⟨"OrgId", "orgId", ToLower T O⟩,
            ⟨"ProjectId", "projectId", p⟩],
          [], [.prompt "apiKey", .prompt "orgId"]⟩ :=
    PopulateArgs_typed T [("projectId", p)] listCredsResults (fun _ => 0)
      (fun n => if n = "apiKey" then K else O) [] (by decide) (by decide)
      (by
        intro f hf
        rw [hm] at hf
        simp only [List.mem_cons, List.mem_singleton, List.not_mem_nil, or_false] at hf
        rcases hf with rfl | rfl
        · exact hK
        · exact hO)
  have herr : (PopulateArgs T [("projectId", p)] listCredsResults [.ok K, .ok O]).err = none := by
    rw [hpa]
  have hc := actionShape_calls T listCredsResults (actionRequest "listCreds") .printf
    (fun _ => rfl) [("projectId", p)] [.ok K, .ok O] remote herr
  have ht := actionShape_trace T listCredsResults (actionRequest "listCreds") .printf
    [("projectId", p)] [.ok K, .ok O] remote herr
  rw [hpa] at hc ht
  rw [listCredsAction_shape]
  exact ⟨hc.1, hc.2, ht, rfl, rfl⟩

/-- Witness of C7: `p = proj-123`, `K = KEY1`, `O = ORG1` on a service that
answers: the client is built with `key1` and `org1` and the one request is the
fetch of all credentials of `proj-123`. -/
theorem listCreds_scenario_witness :
    ("KEY1" ≠ "" ∧ "ORG1" ≠ "") ∧
    clients (listCredsAction latin1 [("projectId", "proj-123")] [.ok "KEY1", .ok "ORG1"]
        accepting).trace
      = [("key1", "org1")] ∧
    remoteCalls
        (listCredsAction latin1 [("projectId", "proj-123")] [.ok "KEY1", .ok "ORG1"]
          accepting).trace
      = [.GetAllIOS "proj-123"] :=
  ⟨by decide,
    (listCreds_scenario latin1 "proj-123" "KEY1" "ORG1" accepting (by decide) (by decide)).1,
    (listCreds_scenario latin1 "proj-123" "KEY1" "ORG1" accepting (by decide) (by decide)).2.1⟩

/-- C8. For all strings `p` and `c`, when the flags hold `projectId ↦ p` and
`credId ↦ c`: in every run in which the resolution succeeds, the action of
`deleteCred` sends one request, the delete with first argument `p` and second
argument the resolved value of the field `CertId` (lookup name `certId`), on
the one client built from the resolved `ApiKey` and `OrgId`, and when that
request succeeds the action returns no error and the only thing it prints is
the `Status` of the response; and the resolution does succeed whenever the
operator ends every question with a non-empty answer. -/
theorem deleteCred_scenario (T : CaseTable) (flags : FlagMap) (remote : Remote) (p c : String)
    (hp : flags.get "projectId" = some p) (_hc : flags.get "credId" = some c) :
    (∀ term : Terminal, (PopulateArgs T flags deleteCredResults term).err = none →
      clients (deleteCredAction T flags term remote).trace
        = [(fieldValue (PopulateArgs T flags deleteCredResults term).data "ApiKey",
            fieldValue (PopulateArgs T flags deleteCredResults term).data "OrgId")] ∧
      remoteCalls (deleteCredAction T flags term remote).trace
        = [.DeleteIOS p (fieldValue (PopulateArgs T flags deleteCredResults term).data "CertId")] ∧
      ∀ resp : Reply,
        remote (fieldValue (PopulateArgs T flags deleteCredResults term).data "ApiKey")
            (fieldValue (PopulateArgs T flags deleteCredResults term).data "OrgId")
            (.DeleteIOS p (fieldValue (PopulateArgs T flags deleteCredResults term).data "CertId"))
          = .ok resp →
        (deleteCredAction T flags term remote).err = none ∧
        printed (deleteCredAction T flags term remote).trace = [.println resp.Status]) ∧
    (∀ (retries : String → Nat) (answer : String → String) (extra : Terminal),
      (∀ f ∈ missingFields flags deleteCredResults, answer (lookupName f) ≠ "") →
      (PopulateArgs T flags deleteCredResults
        (typedAnswers retries answer (lookupNames (missingFields flags deleteCredResults))
          ++ extra)).err = none) := by
  constructor
  · intro term herr
    obtain ⟨vals, _, hdata⟩ := PopulateArgs_accepted T flags deleteCredResults term
      (by decide) (by decide) herr
    have hproj : fieldValue (PopulateArgs T flags deleteCredResults term).data "ProjectId" = p := by
      rw [hdata, fieldValue_map_resolved]
      show (resolved flags vals ⟨"ProjectId", "projectId", ""⟩).Value = p
      have hl : lookupName ⟨"ProjectId", "projectId", ""⟩ = "projectId" := rfl
      simp only [resolved, hl, hp]
    have hreq : actionRequest "deleteCred" (PopulateArgs T flags deleteCredResults term).data
        = .DeleteIOS p (fieldValue (PopulateArgs T flags deleteCredResults term).data "CertId") := by
      rw [← hproj]
      rfl
    have hcalls := actionShape_calls T deleteCredResults (actionRequest "deleteCred")
      (fun resp => .println resp.Status) (fun _ => rfl) flags term remote herr
    rw [deleteCredAction_shape]
    refine ⟨hcalls.1, ?_, ?_⟩
    · rw [hcalls.2, hreq]
    · intro resp hresp
      rw [← hreq] at hresp
      constructor
      · rw [actionShape_remote_ok T _ _ _ _ _ _ resp herr hresp]
      · exact actionShape_printed T deleteCredResults (actionRequest "deleteCred")
          (fun resp => .println resp.Status) (fun _ => rfl) flags term remote resp herr hresp
  · intro retries answer extra hne
    rw [PopulateArgs_typed T flags deleteCredResults retries answer extra (by decide) (by decide)
      hne]

/-- Witness of C8: `deleteCred` with `apiKey`, `orgId`, `projectId ↦ p` and
`credId ↦ c` supplied: the field `CertId` is asked for on the terminal,
answered `CERT-9`, and the request is the delete of `cert-9` in `p`; only the
status is printed. -/
theorem deleteCred_scenario_witness :
    (FlagMap.get [("apiKey", "k"), ("orgId", "o"), ("projectId", "p"), ("credId", "c")] "projectId"
        = some "p" ∧
      FlagMap.get [("apiKey", "k"), ("orgId", "o"), ("projectId", "p"), ("credId", "c")] "credId"
        = some "c" ∧
      (PopulateArgs latin1 [("apiKey", "k"), ("orgId", "o"), ("projectId", "p"), ("credId", "c")]
        deleteCredResults [.ok "CERT-9"]).err = none) ∧
    (deleteCredAction latin1 [("apiKey", "k"), ("orgId", "o"), ("projectId", "p"), ("credId", "c")]
        [.ok "CERT-9"] accepting).trace
      = [.prompt "certId", .newService "k" "o", .call (.DeleteIOS "p" "cert-9"),
          .println "204 No Content"] ∧
    remoteCalls (deleteCredAction latin1
        [("apiKey", "k"), ("orgId", "o"), ("projectId", "p"), ("credId", "c")]
        [.ok "CERT-9"] accepting).trace = [.DeleteIOS "p" "cert-9"] ∧
    printed (deleteCredAction latin1
        [("apiKey", "k"), ("orgId", "o"), ("projectId", "p"), ("credId", "c")]
        [.ok "CERT-9"] accepting).trace = [.println "204 No Content"] :=
  ⟨by decide, by decide,
    ((deleteCred_scenario latin1 [("apiKey", "k"), ("orgId", "o"), ("projectId", "p"), ("credId", "c")]
      accepting "p" "c" (by decide) (by decide)).1 [.ok "CERT-9"] (by decide)).2.1,
    (((deleteCred_scenario latin1 [("apiKey", "k"), ("orgId", "o"), ("projectId", "p"), ("credId", "c")]
      accepting "p" "c" (by decide) (by decide)).1 [.ok "CERT-9"] (by decide)).2.2
        ⟨"credential", "204 No Content"⟩ rfl).2⟩

theorem actionShape_propagates (T : CaseTable) (results : Record) (request : Record → Op)
    (shown : Reply → Event) (hshown : ∀ r, printed [shown r] = [shown r])
    (flags : FlagMap) (term : Terminal) (remote : Remote) :
    (∀ e, (PopulateArgs T flags results term).err = some e →
      actionShape T results request shown flags term remote
        = ⟨some e, (PopulateArgs T flags results term).trace⟩ ∧
      clients (actionShape T results request shown flags term remote).trace = [] ∧
      remoteCalls (actionShape T results request shown flags term remote).trace = [] ∧
      printed (actionShape T results request shown flags term remote).trace = []) ∧
    ((PopulateArgs T flags results term).err = none →
      ∃ k o op,
        clients (actionShape T results request shown flags term remote).trace = [(k, o)] ∧
        remoteCalls (actionShape T results request shown flags term remote).trace = [op] ∧
        ∀ e, remote k o op = .error e →
          actionShape T results request shown flags term remote
            = ⟨some e, (PopulateArgs T flags results term).trace ++ [.newService k o, .call op]⟩ ∧
          printed (actionShape T results request shown flags term remote).trace = []) := by
  have hi := PopulateArgs_interactive T flags results term
  constructor
  · intro e he
    rw [actionShape_populate_error T _ _ _ _ _ _ e he]
    exact ⟨rfl, clients_interactive _ hi, remoteCalls_interactive _ hi, printed_interactive _ hi⟩
  · intro hnone
    have hc := actionShape_calls T results request shown hshown flags term remote hnone
    refine ⟨_, _, _, hc.1, hc.2, ?_⟩
    intro e he
    rw [actionShape_remote_error T _ _ _ _ _ _ e hnone he]
    refine ⟨rfl, ?_⟩
    show printed (_ ++ [_, _]) = []
    rw [printed_append, printed_interactive _ hi]
    rfl

theorem Commands_lookup_action (T : CaseTable) (CreateFlagSet : String → FlagSet) (key : String)
    (cmd : Command) (h : List.lookup key (Commands T CreateFlagSet) = some cmd) :
    (key = "getCred" ∧ cmd.Action = getCredAction T) ∨
    (key = "listCreds" ∧ cmd.Action = listCredsAction T) ∨
    (key = "updateCred" ∧ cmd.Action = updateCredAction T) ∨
    (key = "uploadCred" ∧ cmd.Action = uploadCredAction T) ∨
    (key = "deleteCred" ∧ cmd.Action = deleteCredAction T) := by
  unfold Commands at h
  simp only [List.lookup] at h
  split at h
  · rename_i hk
    simp only [Option.some.injEq] at h
    subst h
    exact Or.inl ⟨eq_of_beq hk, rfl⟩
  split at h
  · rename_i hk
    simp only [Option.some.injEq] at h
    subst h
    exact Or.inr (Or.inl ⟨eq_of_beq hk, rfl⟩)
  split at h
  · rename_i hk
    simp only [Option.some.injEq] at h
    subst h
    exact Or.inr (Or.inr (Or.inl ⟨eq_of_beq hk, rfl⟩))
  split at h
  · rename_i hk
    simp only [Option.some.injEq] at h
    subst h
    exact Or.inr (Or.inr (Or.inr (Or.inl ⟨eq_of_beq hk, rfl⟩)))
  split at h
  · rename_i hk
    simp only [Option.some.injEq] at h
    subst h
    exact Or.inr (Or.inr (Or.inr (Or.inr ⟨eq_of_beq hk, rfl⟩)))
  · cases h

/-- C9. For each of the five commands of `Commands`: if `PopulateArgs` returns
an error `e`, the action returns exactly `e` and its steps are those of the
failed resolution, with no client built, no request sent and nothing printed;
and if the resolution succeeds, the action builds one client and sends one
request, and if that request returns an error `e` the action returns exactly
`e`, its steps end with that request, and nothing is printed. -/
theorem action_failure_propagation (T : CaseTable) (CreateFlagSet : String → FlagSet)
    (key : String) (cmd : Command) (flags : FlagMap) (term : Terminal) (remote : Remote)
    (hcmd : List.lookup key (Commands T CreateFlagSet) = some cmd) :
    (∀ e, (PopulateArgs T flags (actionRecord key) term).err = some e →
      cmd.Action flags term remote
        = ⟨some e, (PopulateArgs T flags (actionRecord key) term).trace⟩ ∧
      clients (cmd.Action flags term remote).trace = [] ∧
      remoteCalls (cmd.Action flags term remote).trace = [] ∧
      printed (cmd.Action flags term remote).trace = []) ∧
    ((PopulateArgs T flags (actionRecord key) term).err = none →
      ∃ k o op,
        clients (cmd.Action flags term remote).trace = [(k, o)] ∧
        remoteCalls (cmd.Action flags term remote).trace = [op] ∧
        ∀ e, remote k o op = .error e →
          cmd.Action flags term remote
            = ⟨some e, (PopulateArgs T flags (actionRecord key) term).trace ++
                [.newService k o, .call op]⟩ ∧
          printed (cmd.Action flags term remote).trace = []) := by
  rcases Commands_lookup_action T CreateFlagSet key cmd hcmd with
    ⟨hk, ha⟩ | ⟨hk, ha⟩ | ⟨hk, ha⟩ | ⟨hk, ha⟩ | ⟨hk, ha⟩
  · subst hk
    rw [ha]
    exact actionShape_propagates T getCredResults (actionRequest "getCred") .printf
      (fun _ => rfl) flags term remote
  · subst hk
    rw [ha]
    exact actionShape_propagates T listCredsResults (actionRequest "listCreds") .printf
      (fun _ => rfl) flags term remote
  · subst hk
    rw [ha]
    exact actionShape_propagates T updateCredResults (actionRequest "updateCred") .printf
      (fun _ => rfl) flags term remote
  · subst hk
    rw [ha]
    exact actionShape_propagates T uploadCredResults (actionRequest "uploadCred") .printf
      (fun _ => rfl) flags term remote
  · subst hk
    rw [ha]
    exact actionShape_propagates T deleteCredResults (actionRequest "deleteCred")
      (fun resp => .println resp.Status) (fun _ => rfl) flags term remote

/-- Witness of C9: `getCred` on a closed terminal returns the error of the
failed read after the first prompt; `deleteCred` with every field supplied on
a service that answers not found returns that error after its one request. -/
theorem action_failure_propagation_witness :
    (List.lookup "getCred" (Commands latin1 authFlagSet)).isSome = true ∧
    (PopulateArgs latin1 [] (actionRecord "getCred") []).err = some EOF ∧
    getCredAction latin1 [] [] notFound = ⟨some EOF, [.prompt "apiKey"]⟩ ∧
    (PopulateArgs latin1 [("apiKey", "k"), ("orgId", "o"), ("projectId", "p"), ("certId", "c")]
      (actionRecord "deleteCred") []).err = none ∧
    ∃ k o op,
      clients (deleteCredAction latin1
        [("apiKey", "k"), ("orgId", "o"), ("projectId", "p"), ("certId", "c")] [] notFound).trace
        = [(k, o)] ∧
      remoteCalls (deleteCredAction latin1
        [("apiKey", "k"), ("orgId", "o"), ("projectId", "p"), ("certId", "c")] [] notFound).trace
        = [op] ∧
      ∀ e, notFound k o op = .error e →
        deleteCredAction latin1
            [("apiKey", "k"), ("orgId", "o"), ("projectId", "p"), ("certId", "c")] [] notFound
          = ⟨some e,
              (PopulateArgs latin1 [("apiKey", "k"), ("orgId", "o"), ("projectId", "p"), ("certId", "c")]
                (actionRecord "deleteCred") []).trace ++ [.newService k o, .call op]⟩ ∧
        printed (deleteCredAction latin1
          [("apiKey", "k"), ("orgId", "o"), ("projectId", "p"), ("certId", "c")] [] notFound).trace
          = [] :=
  ⟨by decide, by decide,
    ((action_failure_propagation latin1 authFlagSet "getCred"
      ⟨"getCred", "Get IOS Credential Detials",
        ((authFlagSet "getCred").declare "projectId" "" "Project Id").declare
          "credId" "" "Credential Id",
        getCredAction latin1⟩ [] [] notFound rfl).1 EOF (by decide)).1,
    by decide,
    (action_failure_propagation latin1 authFlagSet "deleteCred"
      ⟨"DeleteCred", "Delete a IOS Credential",
        ((authFlagSet "deleteCred").declare "projectId" "" "Project Id").declare
          "credId" "" "Credential Id",
        deleteCredAction latin1⟩
      [("apiKey", "k"), ("orgId", "o"), ("projectId", "p"), ("certId", "c")] [] notFound rfl).2
      (by decide)⟩

/-! ## The claims on the registry -/

/-- The keys of `Commands`, in the order of the map literal. -/
theorem Commands_keys (T : CaseTable) (CreateFlagSet : String → FlagSet) :
    (Commands T CreateFlagSet).map Prod.fst
      = ["getCred", "listCreds", "updateCred", "uploadCred", "deleteCred"] := rfl

/-- C4, the code at `deleteCred`: whenever `CreateFlagSet` does not itself
declare a flag `certId`, the flags declared on the command `deleteCred` are
those of `CreateFlagSet` followed by `projectId` and `credId`, while the record
its action populates has a field of lookup name `certId`: the declared flag
names are not a superset of the record's lookup names. -/
theorem deleteCred_flags_miss_certId (T : CaseTable) (CreateFlagSet : String → FlagSet)
    (h : "certId" ∉ (CreateFlagSet "deleteCred").names) :
    ∃ cmd, List.lookup "deleteCred" (Commands T CreateFlagSet) = some cmd ∧
      cmd.Flags.names = (CreateFlagSet "deleteCred").names ++ ["projectId", "credId"] ∧
      "certId" ∈ lookupNames (actionRecord "deleteCred") ∧
      "certId" ∉ cmd.Flags.names ∧
      ¬ (∀ n ∈ lookupNames (actionRecord "deleteCred"), n ∈ cmd.Flags.names) := by
  have hnames : (((CreateFlagSet "deleteCred").declare "projectId" "" "Project Id").declare
      "credId" "" "Credential Id").names
      = (CreateFlagSet "deleteCred").names ++ ["projectId", "credId"] := by
    simp [FlagSet.names, FlagSet.declare]
  have hrec : "certId" ∈ lookupNames (actionRecord "deleteCred") := by decide
  have hnot : "certId" ∉ (CreateFlagSet "deleteCred").names ++ ["projectId", "credId"] := by
    intro hin
    rcases List.mem_append.mp hin with h1 | h1
    · exact h h1
    · revert h1; decide
  refine ⟨_, rfl, hnames, hrec, ?_, ?_⟩
  · rw [hnames]; exact hnot
  · rw [hnames]
    intro hall
    exact hnot (hall _ hrec)

/-- Evaluation of C4 at a `CreateFlagSet` that declares `apiKey` and `orgId`:
the flags of `deleteCred` are `apiKey`, `orgId`, `projectId`, `credId`, the
lookup names of its record are `apiKey`, `orgId`, `projectId`, `certId`. -/
theorem deleteCred_flags_miss_certId_witness :
    "certId" ∉ (authFlagSet "deleteCred").names ∧
    ∃ cmd, List.lookup "deleteCred" (Commands latin1 authFlagSet) = some cmd ∧
      cmd.Flags.names = (authFlagSet "deleteCred").names ++ ["projectId", "credId"] ∧
      "certId" ∈ lookupNames (actionRecord "deleteCred") ∧
      "certId" ∉ cmd.Flags.names ∧
      ¬ (∀ n ∈ lookupNames (actionRecord "deleteCred"), n ∈ cmd.Flags.names) :=
  ⟨by decide, deleteCred_flags_miss_certId latin1 authFlagSet (by decide)⟩

theorem cover_of_auth (base extra names : List String) (h1 : "apiKey" ∈ base)
    (h2 : "orgId" ∈ base) (hn : ∀ n ∈ names, n = "apiKey" ∨ n = "orgId" ∨ n ∈ extra) :
    ∀ n ∈ names, n ∈ base ++ extra := by
  intro n hmem
  rcases hn n hmem with rfl | rfl | h
  · exact List.mem_append_left _ h1
  · exact List.mem_append_left _ h2
  · exact List.mem_append_right _ h

/-- The four other commands: when `CreateFlagSet` declares `apiKey` and
`orgId`, the flag names declared on `getCred`, `listCreds`, `updateCred` and
`uploadCred` cover the lookup names of the record of the command. -/
theorem other_commands_flags_cover (T : CaseTable) (CreateFlagSet : String → FlagSet)
    (h : ∀ name, "apiKey" ∈ (CreateFlagSet name).names ∧ "orgId" ∈ (CreateFlagSet name).names)
    (key : String) (cmd : Command) (hkey : key ≠ "deleteCred")
    (hcmd : List.lookup key (Commands T CreateFlagSet) = some cmd) :
    ∀ n ∈ lookupNames (actionRecord key), n ∈ cmd.Flags.names := by
  unfold Commands at hcmd
  simp only [List.lookup] at hcmd
  split at hcmd
  · rename_i hk
    simp only [Option.some.injEq] at hcmd
    subst hcmd
    have hk := eq_of_beq hk
    subst hk
    have hnames : ∀ fs : FlagSet, ((fs.declare "projectId" "" "Project Id").declare
        "credId" "" "Credential Id").names = fs.names ++ ["projectId", "credId"] := by
      intro fs; simp [FlagSet.names, FlagSet.declare]
    rw [hnames]
    exact cover_of_auth _ _ _ (h _).1 (h _).2 (by decide)
  split at hcmd
  · rename_i hk
    simp only [Option.some.injEq] at hcmd
    subst hcmd
    have hk := eq_of_beq hk
    subst hk
    have hnames : ∀ fs : FlagSet, (fs.declare "projectId" "" "Project Id").names
        = fs.names ++ ["projectId"] := by
      intro fs; simp [FlagSet.names, FlagSet.declare]
    rw [hnames]
    exact cover_of_auth _ _ _ (h _).1 (h _).2 (by decide)
  split at hcmd
  · rename_i hk
    simp only [Option.some.injEq] at hcmd
    subst hcmd
    have hk := eq_of_beq hk
    subst hk
    have hnames : ∀ fs : FlagSet, ((((((fs.declare "projectId" "" "Project Id").declare
        "certId" "" "Certificate Id").declare "label" "" "Label").declare
        "certPath" "" "Certificate Path").declare
        "profilePath" "" "Provisioning Profile Path").declare
        "certPass" "" "Certificate password").names
        = fs.names ++ ["projectId", "certId", "label", "certPath", "profilePath", "certPass"] := by
      intro fs; simp [FlagSet.names, FlagSet.declare]
    rw [hnames]
    exact cover_of_auth _ _ _ (h _).1 (h _).2 (by decide)
  split at hcmd
  · rename_i hk
    simp only [Option.some.injEq] at hcmd
    subst hcmd
    have hk := eq_of_beq hk
    subst hk
    have hnames : ∀ fs : FlagSet, (((((fs.declare "projectId" "" "Project Id").declare
        "label" "" "Label").declare "certPath" "" "Certificate Path").declare
        "profilePath" "" "Provisioning Profile Path").declare
        "certPass" "" "Certificate password").names
        = fs.names ++ ["projectId", "label", "certPath", "profilePath", "certPass"] := by
      intro fs; simp [FlagSet.names, FlagSet.declare]
    rw [hnames]
    exact cover_of_auth _ _ _ (h _).1 (h _).2 (by decide)
  split at hcmd
  · rename_i hk
    exact absurd (eq_of_beq hk) hkey
  · cases hcmd

/-- C5. The names of `CommandOrder` and the keys of `Commands` are in
bijection: `CommandOrder` has no duplicate, the keys of `Commands` have no
duplicate, every name of `CommandOrder` is a key of `Commands` with an entry,
and every key of `Commands` occurs in `CommandOrder`. -/
theorem CommandOrder_bijection (T : CaseTable) (CreateFlagSet : String → FlagSet) :
    CommandOrder.Nodup ∧
    ((Commands T CreateFlagSet).map Prod.fst).Nodup ∧
    (∀ n ∈ CommandOrder, n ∈ (Commands T CreateFlagSet).map Prod.fst ∧
      (List.lookup n (Commands T CreateFlagSet)).isSome = true) ∧
    (∀ k ∈ (Commands T CreateFlagSet).map Prod.fst, k ∈ CommandOrder) := by
  rw [Commands_keys]
  refine ⟨by decide, by decide, ?_, by decide⟩
  intro n hn
  refine ⟨hn, ?_⟩
  simp only [CommandOrder, List.mem_cons, List.mem_singleton, List.not_mem_nil, or_false] at hn
  rcases hn with rfl | rfl | rfl | rfl | rfl <;> rfl

/-- C10, the code at the key `deleteCred`: the entry stored under it has the
`Name` `DeleteCred`, which differs from the key and is no name of
`CommandOrder`; under the four other keys the `Name` is the key. -/
theorem deleteCred_Name_differs (T : CaseTable) (CreateFlagSet : String → FlagSet) :
    (List.lookup "deleteCred" (Commands T CreateFlagSet)).map Command.Name = some "DeleteCred" ∧
    "DeleteCred" ≠ "deleteCred" ∧
    "DeleteCred" ∉ CommandOrder ∧
    (List.lookup "getCred" (Commands T CreateFlagSet)).map Command.Name = some "getCred" ∧
    (List.lookup "listCreds" (Commands T CreateFlagSet)).map Command.Name = some "listCreds" ∧
    (List.lookup "updateCred" (Commands T CreateFlagSet)).map Command.Name = some "updateCred" ∧
    (List.lookup "uploadCred" (Commands T CreateFlagSet)).map Command.Name = some "uploadCred" :=
  ⟨rfl, by decide, by decide, rfl, rfl, rfl, rfl⟩

end CloudBuild
